import Mathlib

/-!
# The Knative trait of camel-k: `pkg/trait/knative.go`

A shallow embedding of the Knative trait (`knativeTrait`): the `Configure`
step that auto-populates the six endpoint lists and derives two flags, and
the `Apply` step that resolves every endpoint, assembles the Camel
environment descriptor and adds subscriptions and triggers to the
resources of the integration.

Go pointers that are mutated in place (`t`, `e`, `env`) become explicit
state: every operation returns the state it leaves behind together with
the error, if any, so that what has been written before a failure stays
visible.  Code that lives in other packages (`knativeutil`, `knativeapi`,
`metadata`, the Kubernetes client) is gathered in the record `Deps`.
-/

namespace Knative

/-! ## Go standard library: `strings` -/

namespace strings

/-- Loop of `strings.Split` for a one-character separator: `cur` holds the
piece being read, in reverse. -/
def splitAux (sep : Char) : List Char → List Char → List (List Char)
  | [], cur => [cur.reverse]
  | c :: cs, cur =>
    if c = sep then cur.reverse :: splitAux sep cs []
    else splitAux sep cs (c :: cur)

/-- Go `strings.Split(s, sep)` for a separator of one character: the pieces
between the separators, empty pieces included; never the empty list. -/
def Split (s : String) (sep : Char) : List String :=
  (splitAux sep s.data []).map String.mk

/-- Go `strings.Trim(s, cutset)`: `s` without the leading and trailing
characters that occur in `cutset`. -/
def Trim (s : String) (cutset : String) : String :=
  String.mk
    (((s.data.dropWhile (fun c => cutset.data.contains c)).reverse.dropWhile
      (fun c => cutset.data.contains c)).reverse)

/-- Go `strings.Join(elems, sep)`. -/
def Join (elems : List String) (sep : String) : String :=
  sep.intercalate elems

end strings

/-! ## Go maps with string keys and values -/

/-- A Go `map[string]string`, as an association list. -/
abbrev StringMap := List (String × String)

namespace StringMap

/-- Go `m[k]`: the value stored under `k`, the empty string when absent. -/
def get (m : StringMap) (k : String) : String :=
  match m with
  | [] => ""
  | (k', v) :: rest => if k' = k then v else get rest k

/-- Go `m[k] = v`. -/
def set (m : StringMap) (k v : String) : StringMap :=
  match m with
  | [] => [(k, v)]
  | (k', v') :: rest => if k' = k then (k, v) :: rest else (k', v') :: set rest k v

end StringMap

/-! ## Errors -/

/-- Go error values: those produced by a collaborator (`status`, with the
reason the Kubernetes helpers classify on), by `errors.Errorf`, and by
`errors.Wrap`/`errors.Wrapf`. -/
inductive Error where
  | status (reason : String) (message : String)
  | errorf (message : String)
  | wrap (cause : Error) (message : String)
  deriving DecidableEq, Repr

/-- The `Error()` text; a wrapped error prints its own message, a colon and
the text of its cause. -/
def Error.text : Error → String
  | .status _ m => m
  | .errorf m => m
  | .wrap c m => m ++ ": " ++ c.text

/-! ## Data model -/

/-- The fields of `v1.ObjectReference` that the trait reads. -/
structure ObjectReference where
  Kind : String := ""
  Namespace : String := ""
  Name : String := ""
  APIVersion : String := ""
  deriving DecidableEq, Repr

/-- The fields of `url.URL` that the trait reads. -/
structure URL where
  Scheme : String := ""
  Host : String := ""
  Path : String := ""
  deriving DecidableEq, Repr

/-- The record `knativeapi.CamelServiceDefinition`. -/
structure CamelServiceDefinition where
  ServiceType : String
  Name : String
  Host : String
  Port : Int
  Metadata : StringMap
  deriving DecidableEq, Repr

/-- The record `knativeapi.CamelEnvironment`. -/
structure CamelEnvironment where
  Services : List CamelServiceDefinition
  deriving DecidableEq, Repr

/-- The filter of an `eventing.Trigger`; `Attributes` is a pointer to a map. -/
structure TriggerFilter where
  Attributes : Option StringMap
  deriving DecidableEq, Repr

/-- The fields of `eventing.Trigger` that the trait reads, with the
subscriber it delivers to. -/
structure Trigger where
  Name : String
  Broker : String
  Filter : Option TriggerFilter
  Subscriber : String
  deriving DecidableEq, Repr

/-- The fields of a `messaging.Subscription`. -/
structure Subscription where
  Channel : ObjectReference
  Subscriber : String
  Compat : Bool
  deriving DecidableEq, Repr

/-- An object of the resources collection of the integration. -/
inductive Resource where
  | subscription (s : Subscription)
  | trigger (t : Trigger)
  | other (kind : String) (name : String)
  deriving DecidableEq, Repr

/-- What `metadata.Extract` reports for one source of the integration. -/
structure IntegrationMetadata where
  FromURIs : List String
  ToURIs : List String
  deriving DecidableEq, Repr

/-- One entry of `Integration.Spec.Sources`. -/
structure SourceSpec where
  Name : String
  Content : String
  deriving DecidableEq, Repr

/-- The fields of `v1alpha1.Integration` that the trait reads. -/
structure Integration where
  Name : String
  Namespace : String
  Phase : String
  Sources : List SourceSpec
  deriving DecidableEq, Repr

/-- The record `trait.Environment`: the integration (never nil here, the
trait dereferences it), its resources and its environment variables. -/
structure Environment where
  CamelCatalog : String
  Integration : Integration
  Resources : List Resource
  EnvVars : List (String × String)
  deriving DecidableEq, Repr

/-- The record `knativeTrait`; `Enabled` is the field of `BaseTrait` that
`Configure` reads.  A Go `*bool` is an `Option Bool`. -/
structure knativeTrait where
  Enabled : Option Bool := none
  Configuration : String := ""
  ChannelSources : String := ""
  ChannelSinks : String := ""
  EndpointSources : String := ""
  EndpointSinks : String := ""
  EventSources : String := ""
  EventSinks : String := ""
  FilterSourceChannels : Option Bool := none
  Knative08CompatMode : Option Bool := none
  Auto : Option Bool := none
  deriving DecidableEq, Repr

/-- The constant `knativeHistoryHeader`. -/
def knativeHistoryHeader : String := "ce-knativehistory"

/-- Constants and functions the trait takes from other packages: the
constants of `knativeapi` and of the API groups, the helpers of
`knativeutil`, `knativeapi`, `metadata` and `kubernetes`, and the calls to
the cluster registry made through the client of the trait. -/
structure Deps where
  CamelServiceTypeChannel : String
  CamelServiceTypeEndpoint : String
  CamelServiceTypeEvent : String
  CamelEndpointKindSource : String
  CamelEndpointKindSink : String
  CamelMetaServicePath : String
  CamelMetaEndpointKind : String
  CamelMetaKnativeAPIVersion : String
  CamelMetaKnativeKind : String
  CamelMetaFilterPrefix : String
  IntegrationPhaseDeploying : String
  servingGroupVersion : String
  NormalizeToURI : String → String → String
  ExtractObjectReference : String → Except Error ObjectReference
  ExtractEventType : String → String
  FillMissingReferenceData : String → ObjectReference → List ObjectReference
  FilterURIs : List String → String → List String
  CreateSubscription : ObjectReference → String → Bool → Resource
  CreateTrigger : ObjectReference → String → String → Resource
  BuildCamelServiceDefinition :
    String → String → String → URL → String → String → Except Error CamelServiceDefinition
  Deserialize : CamelEnvironment → String → Except Error CamelEnvironment
  Serialize : CamelEnvironment → Except Error String
  Extract : String → SourceSpec → IntegrationMetadata
  GetAddressableReference : List ObjectReference → String → String → Except Error ObjectReference
  GetSinkURL : ObjectReference → String → Except Error URL
  ListSubscriptions : String → Option Error
  IsNotFound : Error → Bool
  IsUnknownAPIError : Error → Bool

/-! ## `extractServices` -/

/-- The method `extractServices` (knative.go, lines 394-404): the loop over the pieces
of `names`, appending the normalised form of each piece that is not empty
after trimming. -/
def extractServices (K : Deps) (names : String) (serviceType : String) : List String :=
  (strings.Split names ',').foldl
    (fun answer item =>
      let i := strings.Trim item " \t\""
      if i ≠ "" then answer ++ [K.NormalizeToURI serviceType i] else answer)
    []

/-- The URI Normalizer in the words of the specification: split on commas,
trim blanks, tabs and double quotes at both ends of each piece, drop the
pieces that are then empty, normalise the others for the category. -/
def normalizedList (K : Deps) (names : String) (serviceType : String) : List String :=
  (((strings.Split names ',').map (fun item => strings.Trim item " \t\"")).filter
    (fun i => decide (i ≠ ""))).map (K.NormalizeToURI serviceType)

/-! ## The environment descriptor and the resources -/

/-- Modelled from the spec: `knativeapi.NewCamelEnvironment` is outside this
file; the descriptor of a pass is created fresh, with no service. -/
def NewCamelEnvironment : CamelEnvironment := ⟨[]⟩

/-- The identity of a service definition for deduplication: name, endpoint
role, service category, API version and kind; role, API version and kind
are read from the metadata, where the trait stores them. -/
def identity (K : Deps) (s : CamelServiceDefinition) :
    String × String × String × String × String :=
  (s.Name, s.Metadata.get K.CamelMetaEndpointKind, s.ServiceType,
    s.Metadata.get K.CamelMetaKnativeAPIVersion, s.Metadata.get K.CamelMetaKnativeKind)

/-- Modelled from the spec: `CamelEnvironment.ContainsService` is outside this
file; it is the membership test using the 4-tuple identity (name, endpoint
role, service category, API version and kind).  The key may be a partial
reference: line 371 passes the reference read from the URI, before it is
resolved, and a bare name has neither API version nor kind.  An empty API
version or kind in the key stands for any: a definition is found when it
agrees with the key on the name, the role, the category and on the API
version and kind the key gives. -/
def ContainsService (K : Deps) (env : CamelEnvironment)
    (name endpointKind serviceType apiVersion kind : String) : Bool :=
  env.Services.any (fun svc =>
    decide (svc.Name = name) &&
    decide (svc.Metadata.get K.CamelMetaEndpointKind = endpointKind) &&
    decide (svc.ServiceType = serviceType) &&
    (decide (apiVersion = "") ||
      decide (svc.Metadata.get K.CamelMetaKnativeAPIVersion = apiVersion)) &&
    (decide (kind = "") || decide (svc.Metadata.get K.CamelMetaKnativeKind = kind)))

/-- Modelled from the spec: `Collection.Add` of the resources is outside this
file; the object joins the objects submitted for creation, after them. -/
def Add (resources : List Resource) (r : Resource) : List Resource :=
  resources ++ [r]

/-- Modelled from the spec: `Collection.HasKnativeTrigger` is outside this
file; it tells whether some trigger among the resources satisfies the
predicate. -/
def HasKnativeTrigger (resources : List Resource) (pred : Trigger → Bool) : Bool :=
  resources.any (fun r =>
    match r with
    | .trigger tr => pred tr
    | _ => false)

/-- Modelled from the spec: `envvar.SetVal` is outside this file; the value is
published under the name, replacing a value already there. -/
def SetVal (vars : List (String × String)) (name value : String) : List (String × String) :=
  StringMap.set vars name value

/-- Modelled from the spec: `Environment.IntegrationInPhase` is outside this
file; it compares the phase of the integration with the given one. -/
def IntegrationInPhase (e : Environment) (phase : String) : Bool :=
  decide (e.Integration.Phase = phase)

/-- Modelled from the spec: `metadata.Each` is outside this file; it hands the
metadata extracted from each source, in order, to the consumer, until the
consumer answers false. -/
def Each {σ : Type} (K : Deps) (catalog : String)
    (consumer : Nat → IntegrationMetadata → σ → σ × Bool) : Nat → List SourceSpec → σ → σ
  | _, [], s => s
  | i, src :: rest, s =>
    match consumer i (K.Extract catalog src) s with
    | (s', true) => Each K catalog consumer (i + 1) rest s'
    | (s', false) => s'

/-- The state one resolution pass works on: the descriptor `env` being
assembled and the trait environment `e`. -/
structure Pass where
  env : CamelEnvironment
  e : Environment
  deriving DecidableEq, Repr

/-- A handler `gen` passed to `withServiceDo`: it receives the resolved
reference, its URL and the service URI, and may change `env` and `e`. -/
abbrev Handler := ObjectReference → URL → String → Pass → Pass × Option Error

/-! ## The resolution loop -/

/-- The loop of `withServiceDo` (lines 366-391) over the service URIs.  The
log line 385 has no effect on the state and is left out. -/
def withServiceDoLoop (K : Deps) (skipDuplicates : Bool) (serviceType endpointKind : String)
    (gen : Handler) : List String → Pass → Pass × Option Error
  | [], p => (p, none)
  | serviceURI :: rest, p =>
    match K.ExtractObjectReference serviceURI with
    | .error err => (p, some err)
    | .ok ref =>
      if skipDuplicates &&
          ContainsService K p.env ref.Name endpointKind serviceType ref.APIVersion ref.Kind then
        withServiceDoLoop K skipDuplicates serviceType endpointKind gen rest p
      else
        let possibleRefs := K.FillMissingReferenceData serviceType ref
        match K.GetAddressableReference possibleRefs p.e.Integration.Namespace ref.Name with
        | .error err =>
          if K.IsNotFound err then
            (p, some (.errorf ("cannot find " ++ serviceType ++ " " ++ ref.Name)))
          else
            (p, some (.wrap err ("error looking up " ++ serviceType ++ " " ++ ref.Name)))
        | .ok actualRef =>
          match K.GetSinkURL actualRef p.e.Integration.Namespace with
          | .error err =>
            (p, some (.wrap err
              ("cannot determine address of " ++ serviceType ++ " " ++ ref.Name)))
          | .ok targetURL =>
            match gen actualRef targetURL serviceURI p with
            | (p', some err) =>
              (p', some (.wrap err
                ("unexpected error while executing handler for " ++ serviceType ++ " " ++
                  ref.Name)))
            | (p', none) =>
              withServiceDoLoop K skipDuplicates serviceType endpointKind gen rest p'

/-- The method `withServiceDo` (lines 356-392). -/
def withServiceDo (K : Deps) (skipDuplicates : Bool) (p : Pass)
    (serviceURIsAsString serviceType endpointKind : String) (gen : Handler) :
    Pass × Option Error :=
  withServiceDoLoop K skipDuplicates serviceType endpointKind gen
    (extractServices K serviceURIsAsString serviceType) p

/-- The method `ifServiceMissingDo` (lines 346-354). -/
def ifServiceMissingDo (K : Deps) (p : Pass)
    (serviceURIsAsString serviceType endpointKind : String) (gen : Handler) :
    Pass × Option Error :=
  withServiceDo K true p serviceURIsAsString serviceType endpointKind gen

/-! ## Channels -/

/-- The method `createSubscription` (lines 233-238). -/
def createSubscription (K : Deps) (t : knativeTrait) (p : Pass) (ref : ObjectReference) :
    Pass × Option Error :=
  let compat := decide (t.Knative08CompatMode ≠ none) && decide (t.Knative08CompatMode = some true)
  let sub := K.CreateSubscription ref p.e.Integration.Name compat
  ({ p with e := { p.e with Resources := Add p.e.Resources sub } }, none)

/-- The handler of the channel sources (lines 187-210). -/
def channelSourceHandler (K : Deps) (t : knativeTrait) : Handler :=
  fun ref loc _ p =>
    let meta : StringMap :=
      [(K.CamelMetaServicePath, "/"),
       (K.CamelMetaEndpointKind, K.CamelEndpointKindSource),
       (K.CamelMetaKnativeAPIVersion, ref.APIVersion),
       (K.CamelMetaKnativeKind, ref.Kind)]
    let meta :=
      if t.FilterSourceChannels ≠ none ∧ t.FilterSourceChannels = some true then
        meta.set (K.CamelMetaFilterPrefix ++ knativeHistoryHeader) loc.Host
      else meta
    let svc : CamelServiceDefinition :=
      { Name := ref.Name, Host := "0.0.0.0", Port := 8080,
        ServiceType := K.CamelServiceTypeChannel, Metadata := meta }
    let p := { p with env := { Services := p.env.Services ++ [svc] } }
    match createSubscription K t p ref with
    | (p, some err) => (p, some err)
    | (p, none) => (p, none)

/-- The handler shared by the three sink lists (lines 217-225, 269-277 and
316-324), for the category `serviceType`. -/
def sinkHandler (K : Deps) (serviceType : String) : Handler :=
  fun ref loc _ p =>
    match K.BuildCamelServiceDefinition ref.Name K.CamelEndpointKindSink serviceType loc
        ref.APIVersion ref.Kind with
    | .error err => (p, some err)
    | .ok svc => ({ p with env := { Services := p.env.Services ++ [svc] } }, none)

/-- The method `configureChannels` (lines 184-231). -/
def configureChannels (K : Deps) (t : knativeTrait) (p : Pass) : Pass × Option Error :=
  match ifServiceMissingDo K p t.ChannelSources K.CamelServiceTypeChannel
      K.CamelEndpointKindSource (channelSourceHandler K t) with
  | (p, some err) => (p, some err)
  | (p, none) =>
    match ifServiceMissingDo K p t.ChannelSinks K.CamelServiceTypeChannel
        K.CamelEndpointKindSink (sinkHandler K K.CamelServiceTypeChannel) with
    | (p, some err) => (p, some err)
    | (p, none) => (p, none)

/-! ## Endpoints -/

/-- The loop over the endpoint sources in `configureEndpoints` (lines 243-265). -/
def endpointSourcesLoop (K : Deps) : List String → Pass → Pass × Option Error
  | [], p => (p, none)
  | endpoint :: rest, p =>
    match K.ExtractObjectReference endpoint with
    | .error err => (p, some err)
    | .ok ref =>
      if ContainsService K p.env endpoint K.CamelEndpointKindSource K.CamelServiceTypeEndpoint
          K.servingGroupVersion "Service" then
        endpointSourcesLoop K rest p
      else
        let svc : CamelServiceDefinition :=
          { Name := ref.Name, Host := "0.0.0.0", Port := 8080,
            ServiceType := K.CamelServiceTypeEndpoint,
            Metadata :=
              [(K.CamelMetaServicePath, "/"),
               (K.CamelMetaEndpointKind, K.CamelEndpointKindSource),
               (K.CamelMetaKnativeAPIVersion, K.servingGroupVersion),
               (K.CamelMetaKnativeKind, "Service")] }
        endpointSourcesLoop K rest { p with env := { Services := p.env.Services ++ [svc] } }

/-- The method `configureEndpoints` (lines 240-283). -/
def configureEndpoints (K : Deps) (t : knativeTrait) (p : Pass) : Pass × Option Error :=
  let serviceSources := extractServices K t.EndpointSources K.CamelServiceTypeEndpoint
  match endpointSourcesLoop K serviceSources p with
  | (p, some err) => (p, some err)
  | (p, none) =>
    match ifServiceMissingDo K p t.EndpointSinks K.CamelServiceTypeEndpoint
        K.CamelEndpointKindSink (sinkHandler K K.CamelServiceTypeEndpoint) with
    | (p, some err) => (p, some err)
    | (p, none) => (p, none)

/-! ## Events -/

/-- The predicate `createTrigger` hands to `HasKnativeTrigger` (lines 334-339). -/
def triggerMatches (ref : ObjectReference) (eventType : String) (trigger : Trigger) : Bool :=
  match trigger.Filter with
  | none => false
  | some filter =>
    match filter.Attributes with
    | none => false
    | some attributes =>
      decide (trigger.Broker = ref.Name) && decide (attributes.get "type" = eventType)

/-- The method `createTrigger` (lines 332-344). -/
def createTrigger (K : Deps) (p : Pass) (ref : ObjectReference) (eventType : String) : Pass :=
  let found := HasKnativeTrigger p.e.Resources (triggerMatches ref eventType)
  if !found then
    let trigger := K.CreateTrigger ref p.e.Integration.Name eventType
    { p with e := { p.e with Resources := Add p.e.Resources trigger } }
  else p

/-- The handler of the event sources (lines 288-309). -/
def eventSourceHandler (K : Deps) : Handler :=
  fun ref _ serviceURI p =>
    let eventType := K.ExtractEventType serviceURI
    let p := createTrigger K p ref eventType
    if !ContainsService K p.env ref.Name K.CamelEndpointKindSource K.CamelServiceTypeEvent
        ref.APIVersion ref.Kind then
      let svc : CamelServiceDefinition :=
        { Name := ref.Name, Host := "0.0.0.0", Port := 8080,
          ServiceType := K.CamelServiceTypeEvent,
          Metadata :=
            [(K.CamelMetaServicePath, "/"),
             (K.CamelMetaEndpointKind, K.CamelEndpointKindSource),
             (K.CamelMetaKnativeAPIVersion, ref.APIVersion),
             (K.CamelMetaKnativeKind, ref.Kind)] }
      ({ p with env := { Services := p.env.Services ++ [svc] } }, none)
    else (p, none)

/-- The method `configureEvents` (lines 285-330). -/
def configureEvents (K : Deps) (t : knativeTrait) (p : Pass) : Pass × Option Error :=
  match withServiceDo K false p t.EventSources K.CamelServiceTypeEvent
      K.CamelEndpointKindSource (eventSourceHandler K) with
  | (p, some err) => (p, some err)
  | (p, none) =>
    match ifServiceMissingDo K p t.EventSinks K.CamelServiceTypeEvent
        K.CamelEndpointKindSink (sinkHandler K K.CamelServiceTypeEvent) with
    | (p, some err) => (p, some err)
    | (p, none) => (p, none)

/-! ## `Apply` -/

/-- The method `Apply` (lines 156-182): the environment it leaves behind and
the error it returns, if any. -/
def Apply (K : Deps) (t : knativeTrait) (e : Environment) : Environment × Option Error :=
  let env := NewCamelEnvironment
  match (if t.Configuration ≠ "" then K.Deserialize env t.Configuration else .ok env) with
  | .error err => (e, some err)
  | .ok env =>
    match configureChannels K t ⟨env, e⟩ with
    | (p, some err) => (p.e, some err)
    | (p, none) =>
      match configureEndpoints K t p with
      | (p, some err) => (p.e, some err)
      | (p, none) =>
        match configureEvents K t p with
        | (p, some err) => (p.e, some err)
        | (p, none) =>
          match K.Serialize p.env with
          | .error err => (p.e, some (.wrap err "unable to fetch environment configuration"))
          | .ok conf =>
            ({ p.e with EnvVars := SetVal p.e.EnvVars "CAMEL_KNATIVE_CONFIGURATION" conf }, none)

/-! ## `Configure` -/

/-- The method `shouldUseKnative08CompatMode` (lines 406-418): the list query
for the Subscription kind of the messaging group in the namespace. -/
def shouldUseKnative08CompatMode (K : Deps) (namespace_ : String) : Bool × Option Error :=
  let err := K.ListSubscriptions namespace_
  match err with
  | some cause => if K.IsUnknownAPIError cause then (true, none) else (false, err)
  | none => (false, err)

/-- The block repeated for each of the six lists in `Configure` (for instance
lines 77-84): the URIs of the category among those `pick` selects from the
metadata of every source, joined by commas. -/
def discover (K : Deps) (e : Environment) (pick : IntegrationMetadata → List String)
    (serviceType : String) : String :=
  let items : List String :=
    Each K e.CamelCatalog
      (fun _ meta items => (items ++ K.FilterURIs (pick meta) serviceType, true))
      0 e.Integration.Sources []
  strings.Join items ","

/-- The six blocks of `Configure` that fill the lists left empty (lines
76-135), in the order of the source. -/
def populateLists (K : Deps) (t : knativeTrait) (e : Environment) : knativeTrait :=
  let t := if t.ChannelSources = "" then
    { t with ChannelSources := discover K e (fun m => m.FromURIs) K.CamelServiceTypeChannel }
    else t
  let t := if t.ChannelSinks = "" then
    { t with ChannelSinks := discover K e (fun m => m.ToURIs) K.CamelServiceTypeChannel }
    else t
  let t := if t.EndpointSources = "" then
    { t with EndpointSources := discover K e (fun m => m.FromURIs) K.CamelServiceTypeEndpoint }
    else t
  let t := if t.EndpointSinks = "" then
    { t with EndpointSinks := discover K e (fun m => m.ToURIs) K.CamelServiceTypeEndpoint }
    else t
  let t := if t.EventSources = "" then
    { t with EventSources := discover K e (fun m => m.FromURIs) K.CamelServiceTypeEvent }
    else t
  let t := if t.EventSinks = "" then
    { t with EventSinks := discover K e (fun m => m.ToURIs) K.CamelServiceTypeEvent }
    else t
  t

/-- The block of `Configure` that derives the filter flag (lines 136-142). -/
def deriveFilter (t : knativeTrait) : knativeTrait :=
  if (strings.Split t.ChannelSources ',').length > 1 then
    { t with FilterSourceChannels := some true }
  else t

/-- The method `Configure` (lines 66-154): the trait it leaves behind and what
it returns. -/
def Configure (K : Deps) (t : knativeTrait) (e : Environment) :
    knativeTrait × Except Error Bool :=
  if t.Enabled ≠ none ∧ t.Enabled = some false then (t, .ok false)
  else if !IntegrationInPhase e K.IntegrationPhaseDeploying then (t, .ok false)
  else if t.Auto = none ∨ t.Auto = some true then
    let t := populateLists K t e
    let t := deriveFilter t
    if t.Knative08CompatMode = none then
      match shouldUseKnative08CompatMode K e.Integration.Namespace with
      | (_, some err) => (t, .error err)
      | (compat, none) => ({ t with Knative08CompatMode := some compat }, .ok true)
    else (t, .ok true)
  else (t, .ok true)

/-! ## A sample cluster

The collaborators of the trait are outside this file.  The sample below
follows their description in the specification closely enough to run the
trait on concrete configurations. -/

namespace Sample

/-- Modelled from the spec: the URI helpers of `knativeutil` are outside this
file; the canonical form of an endpoint is `knative://<category>/<name>`,
optionally followed by `/<suffix>` and by `?apiVersion=<v>&kind=<k>`. -/
def scheme : List Char := "knative:".data

/-- Modelled from the spec: `knativeutil.NormalizeToURI` is outside this file;
a shorthand bare name is rewritten into the canonical URI form of the
category, a URI is kept. -/
def NormalizeToURI (serviceType : String) (uriOrString : String) : String :=
  if scheme.isPrefixOf uriOrString.data then uriOrString
  else "knative://" ++ serviceType ++ "/" ++ uriOrString

/-- The part of a canonical URI before the query, cut at the slashes, without
the scheme and the empty pieces the double slash leaves. -/
def pathSegments (uri : String) : List String :=
  match strings.Split uri '?' with
  | [] => []
  | path :: _ => ((strings.Split path '/').drop 1).filter (fun seg => decide (seg ≠ ""))

/-- The value of a query parameter of a canonical URI, empty when absent. -/
def queryParameter (uri : String) (param : String) : String :=
  match strings.Split uri '?' with
  | _ :: query :: _ =>
    StringMap.get
      ((strings.Split query '&').map (fun kv =>
        match strings.Split kv '=' with
        | k :: v :: _ => (k, v)
        | _ => (kv, "")))
      param
  | _ => ""

/-- Modelled from the spec: `knativeutil.ExtractObjectReference` is outside
this file; the name is always populated, kind and API version are populated
if encoded in the URI and empty otherwise, and a string without a name is
a malformed reference. -/
def ExtractObjectReference (uri : String) : Except Error ObjectReference :=
  if scheme.isPrefixOf uri.data then
    match pathSegments uri with
    | _ :: name :: _ =>
      .ok { Name := name, APIVersion := queryParameter uri "apiVersion",
            Kind := queryParameter uri "kind" }
    | _ => .error (.status "MalformedReference" ("cannot find name in uri " ++ uri))
  else .error (.status "MalformedReference" ("cannot find name in uri " ++ uri))

/-- Modelled from the spec: `knativeutil.ExtractEventType` is outside this
file; the event type is the suffix of the original URI after the broker. -/
def ExtractEventType (uri : String) : String :=
  match pathSegments uri with
  | _ :: _ :: eventType :: _ => eventType
  | _ => ""

/-- Modelled from the spec: the known kinds of each category, in the order
they are tried: the generic channel kind, then a concrete channel kind; the
serving service; the broker. -/
def knownKinds (serviceType : String) : List (String × String) :=
  if serviceType = "channel" then
    [("messaging.knative.dev/v1alpha1", "Channel"),
     ("messaging.knative.dev/v1alpha1", "InMemoryChannel")]
  else if serviceType = "endpoint" then [("serving.knative.dev/v1beta1", "Service")]
  else if serviceType = "event" then [("eventing.knative.dev/v1alpha1", "Broker")]
  else []

/-- Modelled from the spec: `knativeutil.FillMissingReferenceData` is outside
this file; a complete reference is its own single candidate, a partial one
is completed with every known kind of the category that agrees with it. -/
def FillMissingReferenceData (serviceType : String) (ref : ObjectReference) :
    List ObjectReference :=
  if ref.APIVersion ≠ "" ∧ ref.Kind ≠ "" then [ref]
  else
    ((knownKinds serviceType).filter (fun vk =>
        (decide (ref.APIVersion = "") || decide (ref.APIVersion = vk.1)) &&
        (decide (ref.Kind = "") || decide (ref.Kind = vk.2)))).map
      (fun vk => { ref with APIVersion := vk.1, Kind := vk.2 })

/-- An object of the sample registry; it is addressable once it has a URL. -/
structure Addressable where
  APIVersion : String
  Kind : String
  Namespace : String
  Name : String
  Address : Option URL
  deriving DecidableEq, Repr

/-- The object of the registry a reference designates in a namespace. -/
def find (registry : List Addressable) (ref : ObjectReference) (namespace_ : String) :
    Option Addressable :=
  registry.find? (fun o =>
    decide (o.APIVersion = ref.APIVersion) && decide (o.Kind = ref.Kind) &&
    decide (o.Namespace = namespace_) && decide (o.Name = ref.Name))

/-- Modelled from the spec: `knativeutil.GetAddressableReference` is outside
this file; the candidates are probed in order and the first that exists is
returned if it has an address; an existing object without an address is an
unavailable address, and no existing candidate is a not-found error. -/
def GetAddressableReference (registry : List Addressable) :
    List ObjectReference → String → String → Except Error ObjectReference
  | [], _, name => .error (.status "NotFound" (name ++ " not found"))
  | ref :: rest, namespace_, name =>
    match find registry ref namespace_ with
    | none => GetAddressableReference registry rest namespace_ name
    | some o =>
      match o.Address with
      | none => .error (.status "AddressUnavailable" (name ++ " has no address"))
      | some _ => .ok { ref with Namespace := namespace_ }

/-- Modelled from the spec: `knativeutil.GetSinkURL` is outside this file; it
is the address of the object the reference designates. -/
def GetSinkURL (registry : List Addressable) (ref : ObjectReference) (namespace_ : String) :
    Except Error URL :=
  match find registry ref namespace_ with
  | none => .error (.status "NotFound" (ref.Name ++ " not found"))
  | some o =>
    match o.Address with
    | none => .error (.status "AddressUnavailable" (ref.Name ++ " has no address"))
    | some u => .ok u

/-- Modelled from the spec: `knativeutil.FilterURIs` is outside this file; it
keeps, in order, the URIs of the category. -/
def FilterURIs (uris : List String) (serviceType : String) : List String :=
  uris.filter (fun uri => ("knative://" ++ serviceType ++ "/").data.isPrefixOf uri.data)

/-- Modelled from the spec: `knativeutil.CreateSubscription` is outside this
file; the subscription binds the channel to the consuming integration. -/
def CreateSubscription (ref : ObjectReference) (serviceName : String) (compat : Bool) :
    Resource :=
  .subscription { Channel := ref, Subscriber := serviceName, Compat := compat }

/-- Modelled from the spec: `knativeutil.CreateTrigger` is outside this file;
the trigger binds the broker to the consuming integration and carries the
event type as the `type` attribute of its filter. -/
def CreateTrigger (ref : ObjectReference) (serviceName : String) (eventType : String) :
    Resource :=
  .trigger { Name := ref.Name ++ "-" ++ serviceName ++ "-" ++ eventType, Broker := ref.Name,
             Filter := some { Attributes := some [("type", eventType)] },
             Subscriber := serviceName }

/-- Modelled from the spec: `knativeapi.BuildCamelServiceDefinition` is outside
this file; the network target of a definition built from a resolved
reference is the resolved address, on a well-known port. -/
def BuildCamelServiceDefinition (name endpointKind serviceType : String) (rawurl : URL)
    (apiVersion kind : String) : Except Error CamelServiceDefinition :=
  .ok { Name := name, Host := rawurl.Host, Port := 80, ServiceType := serviceType,
        Metadata :=
          [("service.path", rawurl.Path), ("endpoint.kind", endpointKind),
           ("knative.apiVersion", apiVersion), ("knative.kind", kind)] }

/-- Modelled from the spec: the serializer is outside this file; this one
lists the names of the services and reads back only the empty descriptor. -/
def Serialize (env : CamelEnvironment) : Except Error String :=
  .ok ("services=" ++ strings.Join (env.Services.map (fun s => s.Name)) ",")

/-- Modelled from the spec: see `Serialize`; any other text is a malformed
descriptor. -/
def Deserialize (env : CamelEnvironment) (text : String) : Except Error CamelEnvironment :=
  if text = "services=" then .ok env
  else .error (.status "Serialization" "malformed descriptor")

/-- Modelled from the spec: `metadata.Extract` is outside this file; the
content of a sample source is a list of `from:<uri>` and `to:<uri>` items
separated by semicolons. -/
def Extract (_catalog : String) (source : SourceSpec) : IntegrationMetadata :=
  let items := strings.Split source.Content ';'
  { FromURIs := items.filterMap (fun item =>
      if "from:".data.isPrefixOf item.data then some (String.mk (item.data.drop 5)) else none),
    ToURIs := items.filterMap (fun item =>
      if "to:".data.isPrefixOf item.data then some (String.mk (item.data.drop 3)) else none) }

/-- The collaborators over a registry; `probe` is the answer of the registry
to the list query for the legacy Subscription kind. -/
def deps (registry : List Addressable) (probe : Option Error) : Deps where
  CamelServiceTypeChannel := "channel"
  CamelServiceTypeEndpoint := "endpoint"
  CamelServiceTypeEvent := "event"
  CamelEndpointKindSource := "source"
  CamelEndpointKindSink := "sink"
  CamelMetaServicePath := "service.path"
  CamelMetaEndpointKind := "endpoint.kind"
  CamelMetaKnativeAPIVersion := "knative.apiVersion"
  CamelMetaKnativeKind := "knative.kind"
  CamelMetaFilterPrefix := "filter."
  IntegrationPhaseDeploying := "Deploying"
  servingGroupVersion := "serving.knative.dev/v1beta1"
  NormalizeToURI := NormalizeToURI
  ExtractObjectReference := ExtractObjectReference
  ExtractEventType := ExtractEventType
  FillMissingReferenceData := FillMissingReferenceData
  FilterURIs := FilterURIs
  CreateSubscription := CreateSubscription
  CreateTrigger := CreateTrigger
  BuildCamelServiceDefinition := BuildCamelServiceDefinition
  Deserialize := Deserialize
  Serialize := Serialize
  Extract := Extract
  GetAddressableReference := GetAddressableReference registry
  GetSinkURL := GetSinkURL registry
  ListSubscriptions := fun _ => probe
  IsNotFound := fun err =>
    match err with
    | .status reason _ => decide (reason = "NotFound")
    | _ => false
  IsUnknownAPIError := fun err =>
    match err with
    | .status reason _ => decide (reason = "UnknownAPI")
    | _ => false

/-- The registry of the sample cluster: the in-memory channels `a` and `b`,
the broker `broker1` and the serving service `foo`, all in namespace `ns`
and all addressable. -/
def registry : List Addressable :=
  [ { APIVersion := "messaging.knative.dev/v1alpha1", Kind := "InMemoryChannel",
      Namespace := "ns", Name := "a",
      Address := some { Scheme := "http", Host := "a.ns.svc", Path := "/" } },
    { APIVersion := "messaging.knative.dev/v1alpha1", Kind := "InMemoryChannel",
      Namespace := "ns", Name := "b",
      Address := some { Scheme := "http", Host := "b.ns.svc", Path := "/" } },
    { APIVersion := "eventing.knative.dev/v1alpha1", Kind := "Broker",
      Namespace := "ns", Name := "broker1",
      Address := some { Scheme := "http", Host := "broker1.ns.svc", Path := "/" } },
    { APIVersion := "serving.knative.dev/v1beta1", Kind := "Service",
      Namespace := "ns", Name := "foo",
      Address := some { Scheme := "http", Host := "foo.ns.svc", Path := "/" } } ]

/-- The sample cluster: the sample registry, where the legacy Subscription
kind is recognised and has no instance. -/
def cluster : Deps := deps registry none

/-- An integration `it` of namespace `ns` in the deploying phase, with the
given sources and no resources or variables yet. -/
def environment (sources : List SourceSpec) : Environment :=
  { CamelCatalog := "catalog",
    Integration := { Name := "it", Namespace := "ns", Phase := "Deploying", Sources := sources },
    Resources := [], EnvVars := [] }

end Sample

/-! ## Notions used to state the properties -/

/-- The URIs of a category that the catalog reports for the sources of the
integration, in the order of the sources and, within a source, in the order
reported. -/
def catalogURIs (K : Deps) (e : Environment) (pick : IntegrationMetadata → List String)
    (serviceType : String) : List String :=
  (e.Integration.Sources.map
    (fun src => K.FilterURIs (pick (K.Extract e.CamelCatalog src)) serviceType)).flatten

/-- The pair (broker name, event-type filter value) that identifies a trigger;
an object that is not a trigger, or a trigger without filter attributes, has
none. -/
def triggerKey : Resource → Option (String × String)
  | .trigger tr =>
    match tr.Filter with
    | none => none
    | some filter =>
      match filter.Attributes with
      | none => none
      | some attributes => some (tr.Broker, attributes.get "type")
  | _ => none

/-- The pairs of the triggers among the resources, in order. -/
def triggerKeys (resources : List Resource) : List (String × String) :=
  resources.filterMap triggerKey

/-- What the registry answers for one service URI of a category: the resolved
reference and its URL, when the URI is well formed, some candidate exists
and its address is available (lines 367-384). -/
def resolve (K : Deps) (serviceType namespace_ : String) (serviceURI : String) :
    Option (ObjectReference × URL) :=
  match K.ExtractObjectReference serviceURI with
  | .error _ => none
  | .ok ref =>
    match K.GetAddressableReference (K.FillMissingReferenceData serviceType ref)
        namespace_ ref.Name with
    | .error _ => none
    | .ok actualRef =>
      match K.GetSinkURL actualRef namespace_ with
      | .error _ => none
      | .ok targetURL => some (actualRef, targetURL)

/-- The pair (broker, event type) an entry of the event sources asks a trigger
for: the name of the resolved broker and the event type of the URI. -/
def eventPair (K : Deps) (namespace_ : String) (serviceURI : String) :
    Option (String × String) :=
  (resolve K K.CamelServiceTypeEvent namespace_ serviceURI).map
    (fun r => (r.1.Name, K.ExtractEventType serviceURI))

/-- The key under which the channel sources record the host to filter on. -/
def historyKey (K : Deps) : String := K.CamelMetaFilterPrefix ++ knativeHistoryHeader

/-- The trait environment of `p'` is that of `p` with more resources, and its
descriptor that of `p` with more services: the integration and the
environment variables are the same, and nothing has been removed. -/
def Pass.grows (p p' : Pass) : Prop :=
  p'.e.Integration = p.e.Integration ∧ p'.e.EnvVars = p.e.EnvVars ∧
  p.e.Resources <+: p'.e.Resources ∧ p.env.Services <+: p'.env.Services

/-- The objects `Apply` may add to the resources of an integration: the
subscription made for an entry of the channel sources that resolved, and
the trigger made for an entry of the event sources that resolved, with the
event type of that entry. -/
def addedBy (K : Deps) (t : knativeTrait) (integration : Integration) (r : Resource) : Prop :=
  (∃ uri ∈ extractServices K t.ChannelSources K.CamelServiceTypeChannel, ∃ actualRef targetURL,
    resolve K K.CamelServiceTypeChannel integration.Namespace uri = some (actualRef, targetURL) ∧
    r = K.CreateSubscription actualRef integration.Name
      (decide (t.Knative08CompatMode ≠ none) && decide (t.Knative08CompatMode = some true))) ∨
  (∃ uri ∈ extractServices K t.EventSources K.CamelServiceTypeEvent, ∃ actualRef targetURL,
    resolve K K.CamelServiceTypeEvent integration.Namespace uri = some (actualRef, targetURL) ∧
    r = K.CreateTrigger actualRef integration.Name (K.ExtractEventType uri))

/-- The environment `e'` is `e` with more resources, each of them accepted by
`ok`: same integration, same variables, and the resources of `e` followed
by the added ones. -/
def Environment.extendedBy (ok : Resource → Prop) (e e' : Environment) : Prop :=
  e'.Integration = e.Integration ∧ e'.EnvVars = e.EnvVars ∧
  ∃ added, e'.Resources = e.Resources ++ added ∧ ∀ r ∈ added, ok r

/-- The resolved reference completes the reference read from the URI: same
name, and the API version and kind the URI gives, if any. -/
def completes (ref actualRef : ObjectReference) : Prop :=
  actualRef.Name = ref.Name ∧
  (ref.APIVersion = "" ∨ actualRef.APIVersion = ref.APIVersion) ∧
  (ref.Kind = "" ∨ actualRef.Kind = ref.Kind)

/-! ## Properties of the `strings` helpers -/

theorem strings.length_splitAux (sep : Char) (s cur : List Char) :
    (strings.splitAux sep s cur).length = s.count sep + 1 := by
  induction s generalizing cur with
  | nil => simp [strings.splitAux]
  | cons c cs ih =>
    by_cases h : c = sep
    · subst h
      simp [strings.splitAux, ih]
    · have h' : (c == sep) = false := by simpa using h
      simp [strings.splitAux, h, ih, List.count_cons, h']

theorem strings.length_Split (s : String) (sep : Char) :
    (strings.Split s sep).length = s.data.count sep + 1 := by
  simp [strings.Split, strings.length_splitAux]

theorem strings.one_lt_length_Split (s : String) (sep : Char) :
    1 < (strings.Split s sep).length ↔ sep ∈ s.data := by
  rw [strings.length_Split]
  constructor
  · intro h
    exact List.count_pos_iff.mp (by omega)
  · intro h
    have := List.count_pos_iff.mpr h
    omega

theorem strings.splitAux_ne_nil (sep : Char) (s cur : List Char) :
    strings.splitAux sep s cur ≠ [] := by
  induction s generalizing cur with
  | nil => simp [strings.splitAux]
  | cons c cs ih =>
    unfold strings.splitAux
    split_ifs
    · simp
    · exact ih _

theorem strings.splitAux_spec (sep : Char) (s cur : List Char) (hcur : sep ∉ cur) :
    (∀ piece ∈ strings.splitAux sep s cur, sep ∉ piece) ∧
    [sep].intercalate (strings.splitAux sep s cur) = cur.reverse ++ s := by
  induction s generalizing cur with
  | nil => simp [strings.splitAux, List.intercalate, hcur]
  | cons c cs ih =>
    unfold strings.splitAux
    by_cases h : c = sep
    · subst h
      rw [if_pos rfl]
      obtain ⟨h1, h2⟩ := ih [] (by simp)
      constructor
      · intro piece hp
        rcases List.mem_cons.mp hp with rfl | hp
        · simpa using hcur
        · exact h1 piece hp
      · obtain ⟨x, xs, hx⟩ := List.exists_cons_of_ne_nil (strings.splitAux_ne_nil c cs [])
        rw [hx] at h2 ⊢
        simp only [List.intercalate, List.intersperse, List.flatten_cons] at h2 ⊢
        rw [h2]
        simp
    · rw [if_neg h]
      obtain ⟨h1, h2⟩ := ih (c :: cur) (by
        intro hm
        rcases List.mem_cons.mp hm with rfl | hm
        · exact h rfl
        · exact hcur hm)
      refine ⟨h1, ?_⟩
      rw [h2]
      simp

/-- The model of `strings.Split` does split on the separator: no piece holds
the separator, and the pieces put together again with the separator between
them are the input. -/
theorem strings.Split_spec (s : String) (sep : Char) :
    (∀ piece ∈ strings.Split s sep, sep ∉ piece.data) ∧
    [sep].intercalate ((strings.Split s sep).map String.data) = s.data := by
  obtain ⟨h1, h2⟩ := strings.splitAux_spec sep s.data [] (by simp)
  constructor
  · intro piece hp
    unfold strings.Split at hp
    obtain ⟨l, hl, rfl⟩ := List.mem_map.mp hp
    exact h1 l hl
  · unfold strings.Split
    rw [List.map_map]
    have : (String.data ∘ String.mk) = id := by
      funext l; rfl
    rw [this, List.map_id, h2]
    simp

/-- The model of `strings.Trim` does trim at both ends: the input is the result
between two runs of characters of the cutset, and the result neither starts
nor ends with a character of the cutset. -/
theorem strings.Trim_spec (s cutset : String) :
    ∃ pre post, s.data = pre ++ (strings.Trim s cutset).data ++ post ∧
      (∀ c ∈ pre, c ∈ cutset.data) ∧ (∀ c ∈ post, c ∈ cutset.data) ∧
      (∀ c, (strings.Trim s cutset).data.head? = some c → c ∉ cutset.data) ∧
      (∀ c, (strings.Trim s cutset).data.getLast? = some c → c ∉ cutset.data) := by
  set p : Char → Bool := fun c => cutset.data.contains c with hp
  set l := s.data with hl
  set m := l.dropWhile p with hm
  have h1 : l = l.takeWhile p ++ m := (List.takeWhile_append_dropWhile p l).symm
  have h3 : m = (m.reverse.dropWhile p).reverse ++ (m.reverse.takeWhile p).reverse := by
    calc m = m.reverse.reverse := (List.reverse_reverse m).symm
      _ = (m.reverse.takeWhile p ++ m.reverse.dropWhile p).reverse := by
          rw [List.takeWhile_append_dropWhile]
      _ = _ := List.reverse_append _ _
  have hT : (strings.Trim s cutset).data = (m.reverse.dropWhile p).reverse := rfl
  refine ⟨l.takeWhile p, (m.reverse.takeWhile p).reverse, ?_, ?_, ?_, ?_, ?_⟩
  · rw [hT, List.append_assoc, ← h3]; exact h1
  · intro c hc
    have := List.mem_takeWhile_imp hc
    simpa [hp] using this
  · intro c hc
    rw [List.mem_reverse] at hc
    have := List.mem_takeWhile_imp hc
    simpa [hp] using this
  · intro c hc
    rw [hT, List.head?_reverse] at hc
    have hlast : (m.reverse.dropWhile p).getLast? = m.reverse.getLast? := by
      have hsplit := List.takeWhile_append_dropWhile p m.reverse
      have := @List.getLast?_append _ (m.reverse.takeWhile p) (m.reverse.dropWhile p)
      rw [hsplit, hc] at this
      rw [hc, this]
      rfl
    rw [hlast, List.getLast?_reverse] at hc
    have := List.head?_dropWhile_not p l
    rw [← hm, hc] at this
    simpa [hp] using this
  · intro c hc
    rw [hT, List.getLast?_reverse] at hc
    have := List.head?_dropWhile_not p m.reverse
    rw [hc] at this
    simpa [hp] using this

/-! ## `extractServices` -/

theorem extractServices_loop (K : Deps) (serviceType : String) (items answer : List String) :
    items.foldl
        (fun answer item =>
          let i := strings.Trim item " \t\""
          if i ≠ "" then answer ++ [K.NormalizeToURI serviceType i] else answer)
        answer
      = answer ++
        (((items.map (fun item => strings.Trim item " \t\"")).filter
          (fun i => decide (i ≠ ""))).map (K.NormalizeToURI serviceType)) := by
  induction items generalizing answer with
  | nil => simp
  | cons item rest ih =>
    simp only [List.foldl_cons, List.map_cons]
    rw [ih]
    by_cases h : strings.Trim item " \t\"" = ""
    · simp [h]
    · simp [h]

theorem extractServices_pipeline (K : Deps) (names serviceType : String) :
    extractServices K names serviceType = normalizedList K names serviceType := by
  unfold extractServices normalizedList
  rw [extractServices_loop]
  simp

/-- Claim C5: for every input string and category, `extractServices` returns
exactly the sequence obtained by splitting on commas, trimming blanks, tabs
and double quotes at both ends of each piece, dropping the pieces that are
then empty and normalising the others, in the original order and without
deduplication; its length is the number of pieces that are not empty once
trimmed. -/
theorem extractServices_eq_normalizedList (K : Deps) (names serviceType : String) :
    extractServices K names serviceType = normalizedList K names serviceType ∧
    (extractServices K names serviceType).length =
      (strings.Split names ',').countP (fun item => decide (strings.Trim item " \t\"" ≠ "")) := by
  have h := extractServices_pipeline K names serviceType
  refine ⟨h, ?_⟩
  rw [h]
  unfold normalizedList
  rw [List.length_map, List.countP_eq_length_filter, List.filter_map]
  simp [Function.comp_def]

/-! ## `Configure` -/

theorem Each_collect (K : Deps) (catalog : String) (f : IntegrationMetadata → List String)
    (i : Nat) (sources : List SourceSpec) (items : List String) :
    Each K catalog (fun _ meta items => (items ++ f meta, true)) i sources items
      = items ++ (sources.map (fun src => f (K.Extract catalog src))).flatten := by
  induction sources generalizing i items with
  | nil => simp [Each]
  | cons src rest ih => simp [Each, ih]

theorem discover_eq (K : Deps) (e : Environment) (pick : IntegrationMetadata → List String)
    (serviceType : String) :
    discover K e pick serviceType = strings.Join (catalogURIs K e pick serviceType) "," := by
  unfold discover catalogURIs
  rw [Each_collect K e.CamelCatalog (fun m => K.FilterURIs (pick m) serviceType)]
  simp

theorem populateLists_fields (K : Deps) (t : knativeTrait) (e : Environment) :
    (populateLists K t e).ChannelSources =
        (if t.ChannelSources = "" then
          discover K e (fun m => m.FromURIs) K.CamelServiceTypeChannel else t.ChannelSources) ∧
    (populateLists K t e).ChannelSinks =
        (if t.ChannelSinks = "" then
          discover K e (fun m => m.ToURIs) K.CamelServiceTypeChannel else t.ChannelSinks) ∧
    (populateLists K t e).EndpointSources =
        (if t.EndpointSources = "" then
          discover K e (fun m => m.FromURIs) K.CamelServiceTypeEndpoint
          else t.EndpointSources) ∧
    (populateLists K t e).EndpointSinks =
        (if t.EndpointSinks = "" then
          discover K e (fun m => m.ToURIs) K.CamelServiceTypeEndpoint else t.EndpointSinks) ∧
    (populateLists K t e).EventSources =
        (if t.EventSources = "" then
          discover K e (fun m => m.FromURIs) K.CamelServiceTypeEvent else t.EventSources) ∧
    (populateLists K t e).EventSinks =
        (if t.EventSinks = "" then
          discover K e (fun m => m.ToURIs) K.CamelServiceTypeEvent else t.EventSinks) ∧
    (populateLists K t e).FilterSourceChannels = t.FilterSourceChannels ∧
    (populateLists K t e).Knative08CompatMode = t.Knative08CompatMode := by
  by_cases h1 : t.ChannelSources = "" <;> by_cases h2 : t.ChannelSinks = "" <;>
    by_cases h3 : t.EndpointSources = "" <;> by_cases h4 : t.EndpointSinks = "" <;>
    by_cases h5 : t.EventSources = "" <;> by_cases h6 : t.EventSinks = "" <;>
    simp [populateLists, h1, h2, h3, h4, h5, h6]

theorem deriveFilter_fields (t : knativeTrait) :
    (deriveFilter t).ChannelSources = t.ChannelSources ∧
    (deriveFilter t).ChannelSinks = t.ChannelSinks ∧
    (deriveFilter t).EndpointSources = t.EndpointSources ∧
    (deriveFilter t).EndpointSinks = t.EndpointSinks ∧
    (deriveFilter t).EventSources = t.EventSources ∧
    (deriveFilter t).EventSinks = t.EventSinks ∧
    (deriveFilter t).Knative08CompatMode = t.Knative08CompatMode ∧
    (deriveFilter t).FilterSourceChannels =
      (if 1 < (strings.Split t.ChannelSources ',').length then some true
        else t.FilterSourceChannels) := by
  unfold deriveFilter
  refine ⟨?_, ?_, ?_, ?_, ?_, ?_, ?_, ?_⟩ <;> (split_ifs <;> rfl)

/-- When the gates of `Configure` are passed and auto is enabled, the trait
left behind is the populated one with the derived filter flag, up to the
compat-mode flag. -/
theorem Configure_fst (K : Deps) (t : knativeTrait) (e : Environment)
    (hEnabled : t.Enabled ≠ some false)
    (hPhase : e.Integration.Phase = K.IntegrationPhaseDeploying)
    (hAuto : t.Auto = none ∨ t.Auto = some true) :
    ∃ c, (Configure K t e).1 =
      { deriveFilter (populateLists K t e) with Knative08CompatMode := c } := by
  unfold Configure
  have h1 : ¬ (t.Enabled ≠ none ∧ t.Enabled = some false) := fun h => hEnabled h.2
  have h2 : IntegrationInPhase e K.IntegrationPhaseDeploying = true := by
    simp [IntegrationInPhase, hPhase]
  simp only [h1, h2, hAuto, if_true, if_false, Bool.not_true, Bool.false_eq_true]
  generalize deriveFilter (populateLists K t e) = t'
  generalize shouldUseKnative08CompatMode K e.Integration.Namespace = probe
  obtain ⟨compat, _ | err⟩ := probe
  · by_cases hc : t'.Knative08CompatMode = none
    · simp only [hc, if_true]
      exact ⟨some compat, rfl⟩
    · simp only [hc, if_false]
      exact ⟨t'.Knative08CompatMode, by cases t'; rfl⟩
  · refine ⟨t'.Knative08CompatMode, ?_⟩
    cases t'
    split_ifs <;> rfl

/-- Whatever the gates, `Configure` either leaves the trait as it found it or
leaves the populated one. -/
theorem Configure_fst_cases (K : Deps) (t : knativeTrait) (e : Environment) :
    (Configure K t e).1 = t ∨
    ((t.Auto = none ∨ t.Auto = some true) ∧
      ∃ c, (Configure K t e).1 =
        { deriveFilter (populateLists K t e) with Knative08CompatMode := c }) := by
  by_cases hEnabled : t.Enabled = some false
  · left
    simp [Configure, hEnabled]
  · by_cases hPhase : e.Integration.Phase = K.IntegrationPhaseDeploying
    · by_cases hAuto : t.Auto = none ∨ t.Auto = some true
      · exact Or.inr ⟨hAuto, Configure_fst K t e hEnabled hPhase hAuto⟩
      · left
        unfold Configure
        have h1 : ¬ (t.Enabled ≠ none ∧ t.Enabled = some false) := fun h => hEnabled h.2
        simp only [h1, hAuto, if_false]
        split_ifs <;> rfl
    · left
      unfold Configure
      have h1 : ¬ (t.Enabled ≠ none ∧ t.Enabled = some false) := fun h => hEnabled h.2
      have h2 : IntegrationInPhase e K.IntegrationPhaseDeploying = false := by
        simp [IntegrationInPhase, hPhase]
      simp [h1, h2]

/-- Claim C9: when the trait is not disabled, the integration is in the
deploying phase and auto is unset or true, `Configure` sets each of the six
lists that is empty on entry to the URIs of its category and direction that
the catalog reports for the sources of the integration, joined by commas in
the reported order (two channel-typed to-URIs `u1`, `u2` give the
channel-sinks `u1,u2`); and a list that is not empty on entry is left
unchanged, whatever the gates. -/
theorem Configure_autoDiscovery (K : Deps) (t : knativeTrait) (e : Environment) :
    (t.Enabled ≠ some false → e.Integration.Phase = K.IntegrationPhaseDeploying →
      (t.Auto = none ∨ t.Auto = some true) →
      (t.ChannelSources = "" → (Configure K t e).1.ChannelSources =
        strings.Join (catalogURIs K e (fun m => m.FromURIs) K.CamelServiceTypeChannel) ",") ∧
      (t.ChannelSinks = "" → (Configure K t e).1.ChannelSinks =
        strings.Join (catalogURIs K e (fun m => m.ToURIs) K.CamelServiceTypeChannel) ",") ∧
      (t.EndpointSources = "" → (Configure K t e).1.EndpointSources =
        strings.Join (catalogURIs K e (fun m => m.FromURIs) K.CamelServiceTypeEndpoint) ",") ∧
      (t.EndpointSinks = "" → (Configure K t e).1.EndpointSinks =
        strings.Join (catalogURIs K e (fun m => m.ToURIs) K.CamelServiceTypeEndpoint) ",") ∧
      (t.EventSources = "" → (Configure K t e).1.EventSources =
        strings.Join (catalogURIs K e (fun m => m.FromURIs) K.CamelServiceTypeEvent) ",") ∧
      (t.EventSinks = "" → (Configure K t e).1.EventSinks =
        strings.Join (catalogURIs K e (fun m => m.ToURIs) K.CamelServiceTypeEvent) ",") ∧
      (∀ u1 u2, t.ChannelSinks = "" →
        catalogURIs K e (fun m => m.ToURIs) K.CamelServiceTypeChannel = [u1, u2] →
        (Configure K t e).1.ChannelSinks = u1 ++ "," ++ u2)) ∧
    (t.ChannelSources ≠ "" → (Configure K t e).1.ChannelSources = t.ChannelSources) ∧
    (t.ChannelSinks ≠ "" → (Configure K t e).1.ChannelSinks = t.ChannelSinks) ∧
    (t.EndpointSources ≠ "" → (Configure K t e).1.EndpointSources = t.EndpointSources) ∧
    (t.EndpointSinks ≠ "" → (Configure K t e).1.EndpointSinks = t.EndpointSinks) ∧
    (t.EventSources ≠ "" → (Configure K t e).1.EventSources = t.EventSources) ∧
    (t.EventSinks ≠ "" → (Configure K t e).1.EventSinks = t.EventSinks) := by
  obtain ⟨p1, p2, p3, p4, p5, p6, -, -⟩ := populateLists_fields K t e
  obtain ⟨d1, d2, d3, d4, d5, d6, -, -⟩ := deriveFilter_fields (populateLists K t e)
  constructor
  · intro hEnabled hPhase hAuto
    obtain ⟨c, hc⟩ := Configure_fst K t e hEnabled hPhase hAuto
    rw [hc]
    simp only [d1, d2, d3, d4, d5, d6, p1, p2, p3, p4, p5, p6, discover_eq]
    refine ⟨?_, ?_, ?_, ?_, ?_, ?_, ?_⟩
    · intro h; rw [if_pos h]
    · intro h; rw [if_pos h]
    · intro h; rw [if_pos h]
    · intro h; rw [if_pos h]
    · intro h; rw [if_pos h]
    · intro h; rw [if_pos h]
    · intro u1 u2 h hu
      rw [if_pos h, hu]
      simp [strings.Join, String.intercalate, String.intercalate.go]
  · rcases Configure_fst_cases K t e with h | ⟨-, c, hc⟩
    · rw [h]
      exact ⟨fun _ => rfl, fun _ => rfl, fun _ => rfl, fun _ => rfl, fun _ => rfl, fun _ => rfl⟩
    · rw [hc]
      simp only [d1, d2, d3, d4, d5, d6, p1, p2, p3, p4, p5, p6]
      refine ⟨?_, ?_, ?_, ?_, ?_, ?_⟩ <;> (intro h; rw [if_neg h])

/-- Witness of `Configure_autoDiscovery`: in the sample cluster, a source
whose catalog metadata reports the two channel-typed to-URIs `u1` and `u2`
(and one endpoint) gives the channel-sinks `u1,u2`. -/
theorem Configure_autoDiscovery_witness :
    (Configure Sample.cluster {}
      (Sample.environment
        [⟨"routes", "to:knative://channel/u1;to:knative://endpoint/x;to:knative://channel/u2"⟩])).1.ChannelSinks
      = "knative://channel/u1,knative://channel/u2" :=
  ((Configure_autoDiscovery Sample.cluster {}
      (Sample.environment
        [⟨"routes", "to:knative://channel/u1;to:knative://endpoint/x;to:knative://channel/u2"⟩])).1
    (by decide) (by decide) (by decide)).2.2.2.2.2.2
    "knative://channel/u1" "knative://channel/u2" (by decide) (by decide)

theorem length_extractServices_le (K : Deps) (names serviceType : String) :
    (extractServices K names serviceType).length ≤ (strings.Split names ',').length := by
  rw [(extractServices_pipeline K names serviceType)]
  unfold normalizedList
  rw [List.length_map]
  exact (List.length_filter_le _ _).trans (by rw [List.length_map])

/-- Claim C10, amended: when `Configure` passes its gates (trait not disabled,
deploying phase) with auto enabled and the filter flag unset on entry, the
flag is true afterwards if and only if the channel-sources string contains
a comma, that is, splits into more than one piece; without a comma it stays
unset; and whenever the normalised list holds two different channels the
flag is true. -/
theorem Configure_filterFlag (K : Deps) (t : knativeTrait) (e : Environment)
    (hEnabled : t.Enabled ≠ some false)
    (hPhase : e.Integration.Phase = K.IntegrationPhaseDeploying)
    (hAuto : t.Auto = none ∨ t.Auto = some true)
    (hUnset : t.FilterSourceChannels = none) :
    ((Configure K t e).1.FilterSourceChannels = some true ↔
      ',' ∈ (Configure K t e).1.ChannelSources.data) ∧
    (',' ∉ (Configure K t e).1.ChannelSources.data →
      (Configure K t e).1.FilterSourceChannels = none) ∧
    ((∃ x ∈ extractServices K (Configure K t e).1.ChannelSources K.CamelServiceTypeChannel,
        ∃ y ∈ extractServices K (Configure K t e).1.ChannelSources K.CamelServiceTypeChannel,
          x ≠ y) →
      (Configure K t e).1.FilterSourceChannels = some true) := by
  obtain ⟨-, -, -, -, -, -, p7, -⟩ := populateLists_fields K t e
  obtain ⟨d1, -, -, -, -, -, -, d8⟩ := deriveFilter_fields (populateLists K t e)
  obtain ⟨c, hc⟩ := Configure_fst K t e hEnabled hPhase hAuto
  rw [hc]
  simp only [d1, d8, p7, hUnset]
  generalize (populateLists K t e).ChannelSources = cs
  have hiff := strings.one_lt_length_Split cs ','
  have key : (if 1 < (strings.Split cs ',').length then some true else (none : Option Bool))
      = some true ↔ ',' ∈ cs.data := by
    rw [← hiff]
    split_ifs with h <;> simp [h]
  refine ⟨key, ?_, ?_⟩
  · intro h
    rw [← hiff] at h
    rw [if_neg h]
  · rintro ⟨x, hx, y, hy, hxy⟩
    rw [key, ← hiff]
    by_contra hlen
    have hle := length_extractServices_le K cs K.CamelServiceTypeChannel
    have h1 : (extractServices K cs K.CamelServiceTypeChannel).length ≤ 1 := by omega
    apply hxy
    generalize extractServices K cs K.CamelServiceTypeChannel = l at hx hy h1
    match l, hx, hy, h1 with
    | [a], hx, hy, _ =>
      rw [List.mem_singleton] at hx hy
      rw [hx, hy]

/-- Witness of `Configure_filterFlag`: in the sample cluster the
channel-sources `a,` (a single channel and a trailing comma) sets the flag. -/
theorem Configure_filterFlag_witness :
    (Configure Sample.cluster { ChannelSources := "a," }
      (Sample.environment [])).1.FilterSourceChannels = some true :=
  (Configure_filterFlag Sample.cluster { ChannelSources := "a," } (Sample.environment [])
    (by decide) (by decide) (by decide) (by decide)).1.mpr (by decide)

/-- Claim C10 fails as stated: with auto enabled and the flag unset, the
channel-sources `a,a` names a single distinct channel, and `Configure`
still sets the filter flag to true. -/
theorem Configure_filterFlag_counterexample :
    (Configure Sample.cluster { ChannelSources := "a,a", Auto := some true }
      (Sample.environment [])).1.FilterSourceChannels = some true ∧
    ¬ (∃ x ∈ extractServices Sample.cluster "a,a" Sample.cluster.CamelServiceTypeChannel,
        ∃ y ∈ extractServices Sample.cluster "a,a" Sample.cluster.CamelServiceTypeChannel,
          x ≠ y) := by
  decide

theorem catalogURIs_probe (K : Deps) (probe : String → Option Error) (e : Environment)
    (pick : IntegrationMetadata → List String) (serviceType : String) :
    catalogURIs { K with ListSubscriptions := probe } e pick serviceType
      = catalogURIs K e pick serviceType := rfl

theorem populateLists_probe (K : Deps) (probe : String → Option Error) (t : knativeTrait)
    (e : Environment) :
    populateLists { K with ListSubscriptions := probe } t e = populateLists K t e := by
  unfold populateLists
  simp only [discover_eq, catalogURIs_probe]

/-- Claim C8: `shouldUseKnative08CompatMode` returns (true, no error) when the
list query for the legacy Subscription kind fails with an unknown-API error,
(false, no error) when the query succeeds, and false with the same error for
every other error.  `Configure` leaves an explicitly set compat-mode flag
untouched, does not depend on the answer of the probe when the flag is set
or auto is disabled, and when it does probe (gates passed, auto enabled,
flag unset) it stores the answer or returns the error of the probe. -/
theorem shouldUseKnative08CompatMode_spec (K : Deps) :
    (∀ ns cause, K.ListSubscriptions ns = some cause → K.IsUnknownAPIError cause = true →
      shouldUseKnative08CompatMode K ns = (true, none)) ∧
    (∀ ns, K.ListSubscriptions ns = none →
      shouldUseKnative08CompatMode K ns = (false, none)) ∧
    (∀ ns cause, K.ListSubscriptions ns = some cause → K.IsUnknownAPIError cause = false →
      shouldUseKnative08CompatMode K ns = (false, some cause)) ∧
    (∀ t e b, t.Knative08CompatMode = some b →
      (Configure K t e).1.Knative08CompatMode = some b) ∧
    (∀ t e probe, (t.Knative08CompatMode ≠ none ∨ t.Auto = some false) →
      Configure { K with ListSubscriptions := probe } t e = Configure K t e) ∧
    (∀ t e, t.Enabled ≠ some false → e.Integration.Phase = K.IntegrationPhaseDeploying →
      (t.Auto = none ∨ t.Auto = some true) → t.Knative08CompatMode = none →
      (∀ compat, shouldUseKnative08CompatMode K e.Integration.Namespace = (compat, none) →
        (Configure K t e).1.Knative08CompatMode = some compat ∧
        (Configure K t e).2 = .ok true) ∧
      (∀ compat err, shouldUseKnative08CompatMode K e.Integration.Namespace = (compat, some err) →
        (Configure K t e).1.Knative08CompatMode = none ∧
        (Configure K t e).2 = .error err)) := by
  refine ⟨?_, ?_, ?_, ?_, ?_, ?_⟩
  · intro ns cause h hu
    simp [shouldUseKnative08CompatMode, h, hu]
  · intro ns h
    simp [shouldUseKnative08CompatMode, h]
  · intro ns cause h hu
    simp [shouldUseKnative08CompatMode, h, hu]
  · intro t e b hb
    have p8 := (populateLists_fields K t e).2.2.2.2.2.2.2
    have d7 := (deriveFilter_fields (populateLists K t e)).2.2.2.2.2.2.1
    have hcur : ¬ (deriveFilter (populateLists K t e)).Knative08CompatMode = none := by
      rw [d7, p8, hb]; simp
    have hcur2 : (deriveFilter (populateLists K t e)).Knative08CompatMode = some b := by
      rw [d7, p8, hb]
    unfold Configure
    dsimp only
    generalize hP : deriveFilter (populateLists K t e) = t' at *
    rw [if_neg hcur]
    split_ifs
    · exact hb
    · exact hb
    · exact hcur2
    · exact hb
  · intro t e probe h
    have p8 := (populateLists_fields K t e).2.2.2.2.2.2.2
    have d7 := (deriveFilter_fields (populateLists K t e)).2.2.2.2.2.2.1
    have hp := populateLists_probe K probe t e
    unfold Configure
    dsimp only
    rw [hp]
    generalize hP : deriveFilter (populateLists K t e) = t' at *
    rcases h with h | h
    · have hcur : ¬ (t'.Knative08CompatMode = none) := by
        rw [d7, p8]; exact h
      rw [if_neg hcur, if_neg hcur]
    · have hA : ¬ (t.Auto = none ∨ t.Auto = some true) := by simp [h]
      rw [if_neg hA, if_neg hA]
  · intro t e hEnabled hPhase hAuto hNone
    have p8 := (populateLists_fields K t e).2.2.2.2.2.2.2
    have d7 := (deriveFilter_fields (populateLists K t e)).2.2.2.2.2.2.1
    have hcur : (deriveFilter (populateLists K t e)).Knative08CompatMode = none := by
      rw [d7, p8, hNone]
    have h1 : ¬ (t.Enabled ≠ none ∧ t.Enabled = some false) := fun h => hEnabled h.2
    have h2 : IntegrationInPhase e K.IntegrationPhaseDeploying = true := by
      simp [IntegrationInPhase, hPhase]
    unfold Configure
    simp only [h1, h2, hAuto, hcur, if_true, if_false, Bool.not_true, Bool.false_eq_true]
    constructor
    · intro compat hp
      rw [hp]
      exact ⟨rfl, rfl⟩
    · intro compat err hp
      rw [hp]
      exact ⟨hcur, rfl⟩

/-- Witness of `shouldUseKnative08CompatMode_spec`: a registry that does not
know the legacy Subscription kind puts the trait in compat mode. -/
theorem shouldUseKnative08CompatMode_witness :
    shouldUseKnative08CompatMode
      (Sample.deps Sample.registry (some (.status "UnknownAPI" "no matches for kind Subscription")))
      "ns" = (true, none) :=
  (shouldUseKnative08CompatMode_spec
    (Sample.deps Sample.registry
      (some (.status "UnknownAPI" "no matches for kind Subscription")))).1
    "ns" (.status "UnknownAPI" "no matches for kind Subscription") rfl rfl

/-! ## The resolution loop -/

theorem Pass.grows_refl (p : Pass) : p.grows p :=
  ⟨rfl, rfl, List.prefix_refl _, List.prefix_refl _⟩

theorem Pass.grows_trans {p q r : Pass} (h1 : p.grows q) (h2 : q.grows r) : p.grows r :=
  ⟨h2.1.trans h1.1, h2.2.1.trans h1.2.1, h1.2.2.1.trans h2.2.2.1, h1.2.2.2.trans h2.2.2.2⟩

theorem withServiceDoLoop_cons (K : Deps) (skip : Bool) (serviceType endpointKind : String)
    (gen : Handler) (serviceURI : String) (rest : List String) (p : Pass) :
    withServiceDoLoop K skip serviceType endpointKind gen (serviceURI :: rest) p =
      match K.ExtractObjectReference serviceURI with
      | .error err => (p, some err)
      | .ok ref =>
        if skip &&
            ContainsService K p.env ref.Name endpointKind serviceType ref.APIVersion ref.Kind then
          withServiceDoLoop K skip serviceType endpointKind gen rest p
        else
          match K.GetAddressableReference (K.FillMissingReferenceData serviceType ref)
              p.e.Integration.Namespace ref.Name with
          | .error err =>
            if K.IsNotFound err then
              (p, some (.errorf ("cannot find " ++ serviceType ++ " " ++ ref.Name)))
            else
              (p, some (.wrap err ("error looking up " ++ serviceType ++ " " ++ ref.Name)))
          | .ok actualRef =>
            match K.GetSinkURL actualRef p.e.Integration.Namespace with
            | .error err =>
              (p, some (.wrap err
                ("cannot determine address of " ++ serviceType ++ " " ++ ref.Name)))
            | .ok targetURL =>
              match gen actualRef targetURL serviceURI p with
              | (p', some err) =>
                (p', some (.wrap err
                  ("unexpected error while executing handler for " ++ serviceType ++ " " ++
                    ref.Name)))
              | (p', none) =>
                withServiceDoLoop K skip serviceType endpointKind gen rest p' := by
  rw [withServiceDoLoop]

theorem withServiceDoLoop_grows (K : Deps) (skip : Bool) (serviceType endpointKind : String)
    (gen : Handler) (hgen : ∀ ref loc uri (p : Pass), p.grows (gen ref loc uri p).1)
    (uris : List String) (p : Pass) :
    p.grows (withServiceDoLoop K skip serviceType endpointKind gen uris p).1 := by
  induction uris generalizing p with
  | nil => exact Pass.grows_refl p
  | cons uri rest ih =>
    rw [withServiceDoLoop_cons]
    cases hR : K.ExtractObjectReference uri with
    | error err => exact Pass.grows_refl p
    | ok ref =>
      dsimp only
      split_ifs with hs
      · exact ih p
      · cases hA : K.GetAddressableReference (K.FillMissingReferenceData serviceType ref)
            p.e.Integration.Namespace ref.Name with
        | error err =>
          dsimp only
          split_ifs <;> exact Pass.grows_refl p
        | ok actualRef =>
          dsimp only
          cases hU : K.GetSinkURL actualRef p.e.Integration.Namespace with
          | error err => exact Pass.grows_refl p
          | ok targetURL =>
            dsimp only
            have hg := hgen actualRef targetURL uri p
            rcases hG : gen actualRef targetURL uri p with ⟨p', _ | err⟩
            · rw [hG] at hg
              exact Pass.grows_trans hg (ih p')
            · rw [hG] at hg
              exact hg

/-- The loop over a list in two parts: the second part runs from the state the
first part leaves, unless the first part stops with an error. -/
theorem withServiceDoLoop_append (K : Deps) (skip : Bool) (serviceType endpointKind : String)
    (gen : Handler) (pre post : List String) (p : Pass) :
    withServiceDoLoop K skip serviceType endpointKind gen (pre ++ post) p =
      match withServiceDoLoop K skip serviceType endpointKind gen pre p with
      | (p1, none) => withServiceDoLoop K skip serviceType endpointKind gen post p1
      | (p1, some err) => (p1, some err) := by
  induction pre generalizing p with
  | nil => simp [withServiceDoLoop]
  | cons uri rest ih =>
    rw [List.cons_append, withServiceDoLoop_cons, withServiceDoLoop_cons]
    cases hR : K.ExtractObjectReference uri with
    | error err => rfl
    | ok ref =>
      dsimp only
      split_ifs with hs
      · exact ih p
      · cases hA : K.GetAddressableReference (K.FillMissingReferenceData serviceType ref)
            p.e.Integration.Namespace ref.Name with
        | error err =>
          dsimp only
          split_ifs <;> rfl
        | ok actualRef =>
          dsimp only
          cases hU : K.GetSinkURL actualRef p.e.Integration.Namespace with
          | error err => rfl
          | ok targetURL =>
            dsimp only
            rcases hG : gen actualRef targetURL uri p with ⟨p', _ | err⟩
            · exact ih p'
            · rfl

/-- Claim C7: when the entries before `uri` have been processed without error,
leaving the state `p1`, and `uri` is not skipped by deduplication, an error
of the registry for `uri` stops `withServiceDo` there, in the state `p1`
(the handler runs neither for this entry nor for a later one): a not-found
error gives the error `cannot find <category> <name>`, any other error is
returned wrapped with `error looking up <category> <name>`. -/
theorem withServiceDo_registry_error (K : Deps) (skip : Bool) (p p1 : Pass)
    (names serviceType endpointKind : String) (gen : Handler)
    (pre post : List String) (uri : String) (ref : ObjectReference) (err : Error)
    (hList : extractServices K names serviceType = pre ++ uri :: post)
    (hPre : withServiceDoLoop K skip serviceType endpointKind gen pre p = (p1, none))
    (hRef : K.ExtractObjectReference uri = .ok ref)
    (hNotSkipped :
      (skip && ContainsService K p1.env ref.Name endpointKind serviceType ref.APIVersion ref.Kind)
        = false)
    (hErr : K.GetAddressableReference (K.FillMissingReferenceData serviceType ref)
      p1.e.Integration.Namespace ref.Name = .error err) :
    (K.IsNotFound err = true →
      withServiceDo K skip p names serviceType endpointKind gen =
        (p1, some (.errorf ("cannot find " ++ serviceType ++ " " ++ ref.Name))) ∧
      ∃ failure, (withServiceDo K skip p names serviceType endpointKind gen).2 = some failure ∧
        failure.text = "cannot find " ++ serviceType ++ " " ++ ref.Name) ∧
    (K.IsNotFound err = false →
      withServiceDo K skip p names serviceType endpointKind gen =
        (p1, some (.wrap err ("error looking up " ++ serviceType ++ " " ++ ref.Name)))) := by
  have hrun : withServiceDo K skip p names serviceType endpointKind gen =
      (p1, some (if K.IsNotFound err then
        .errorf ("cannot find " ++ serviceType ++ " " ++ ref.Name)
        else .wrap err ("error looking up " ++ serviceType ++ " " ++ ref.Name))) := by
    unfold withServiceDo
    rw [hList, withServiceDoLoop_append, hPre]
    dsimp only
    rw [withServiceDoLoop_cons, hRef]
    dsimp only
    rw [hNotSkipped]
    simp only [Bool.false_eq_true, if_false]
    rw [hErr]
    dsimp only
    split_ifs <;> rfl
  constructor
  · intro h
    rw [hrun, h]
    exact ⟨rfl, _, rfl, rfl⟩
  · intro h
    rw [hrun, h]
    rfl

/-- Witness of `withServiceDo_registry_error`: in the sample cluster the
channel `c` does not exist; the channel-sources `a,c` stop at `c` with the
error `cannot find channel c`, after the handler has run for `a` only. -/
theorem withServiceDo_registry_error_witness :
    withServiceDo Sample.cluster true ⟨⟨[]⟩, Sample.environment []⟩ "a,c" "channel" "source"
        (channelSourceHandler Sample.cluster {}) =
      ((withServiceDoLoop Sample.cluster true "channel" "source"
          (channelSourceHandler Sample.cluster {}) ["knative://channel/a"]
          ⟨⟨[]⟩, Sample.environment []⟩).1,
        some (.errorf "cannot find channel c")) :=
  ((withServiceDo_registry_error Sample.cluster true ⟨⟨[]⟩, Sample.environment []⟩
      (withServiceDoLoop Sample.cluster true "channel" "source"
          (channelSourceHandler Sample.cluster {}) ["knative://channel/a"]
          ⟨⟨[]⟩, Sample.environment []⟩).1
      "a,c" "channel" "source" (channelSourceHandler Sample.cluster {})
      ["knative://channel/a"] [] "knative://channel/c" { Name := "c" }
      (.status "NotFound" "c not found")
      (by decide) (by decide) rfl (by decide) rfl).1 (by decide)).1

/-! ## What a pass leaves behind -/

theorem sinkHandler_grows (K : Deps) (serviceType : String) (ref : ObjectReference)
    (loc : URL) (uri : String) (p : Pass) :
    p.grows (sinkHandler K serviceType ref loc uri p).1 := by
  unfold sinkHandler
  split
  · exact Pass.grows_refl p
  · exact ⟨rfl, rfl, List.prefix_refl _, List.prefix_append _ _⟩

theorem createTrigger_grows (K : Deps) (p : Pass) (ref : ObjectReference) (eventType : String) :
    p.grows (createTrigger K p ref eventType) := by
  unfold createTrigger Add
  dsimp only
  split_ifs
  · exact ⟨rfl, rfl, List.prefix_append _ _, List.prefix_refl _⟩
  · exact Pass.grows_refl p

theorem ifServiceMissingDo_grows (K : Deps) (p : Pass) (names serviceType endpointKind : String)
    (gen : Handler) (hgen : ∀ ref loc uri (p : Pass), p.grows (gen ref loc uri p).1) :
    p.grows (ifServiceMissingDo K p names serviceType endpointKind gen).1 :=
  withServiceDoLoop_grows K true serviceType endpointKind gen hgen _ p

/-- Claim C6 fails as stated: in the sample cluster the channel `a` exists and
the channel `c` does not; `Apply` on the channel-sources `a,c` returns the
error `cannot find channel c`, and the resources, empty before the call,
hold the subscription to `a` after it. -/
theorem Apply_error_counterexample :
    (Apply Sample.cluster { ChannelSources := "a,c" } (Sample.environment [])).2
      = some (.errorf "cannot find channel c") ∧
    (Sample.environment []).Resources = [] ∧
    (Apply Sample.cluster { ChannelSources := "a,c" } (Sample.environment [])).1.Resources
      = [Sample.CreateSubscription
          { Kind := "InMemoryChannel", Namespace := "ns", Name := "a",
            APIVersion := "messaging.knative.dev/v1alpha1" } "it" false] := by
  decide

/-! ## Triggers -/

theorem resolve_eq_some (K : Deps) (serviceType namespace_ uri : String)
    (actualRef : ObjectReference) (targetURL : URL)
    (h : resolve K serviceType namespace_ uri = some (actualRef, targetURL)) :
    ∃ ref, K.ExtractObjectReference uri = .ok ref ∧
      K.GetAddressableReference (K.FillMissingReferenceData serviceType ref) namespace_ ref.Name
        = .ok actualRef ∧
      K.GetSinkURL actualRef namespace_ = .ok targetURL := by
  unfold resolve at h
  cases hR : K.ExtractObjectReference uri with
  | error err => rw [hR] at h; simp at h
  | ok ref =>
    rw [hR] at h
    dsimp only at h
    cases hA : K.GetAddressableReference (K.FillMissingReferenceData serviceType ref)
        namespace_ ref.Name with
    | error err => rw [hA] at h; simp at h
    | ok act =>
      rw [hA] at h
      dsimp only at h
      cases hU : K.GetSinkURL act namespace_ with
      | error err => rw [hU] at h; simp at h
      | ok url =>
        rw [hU] at h
        simp only [Option.some.injEq, Prod.mk.injEq] at h
        obtain ⟨h1, h2⟩ := h
        subst h1 h2
        exact ⟨ref, rfl, hA, hU⟩

theorem triggerMatches_iff (ref : ObjectReference) (eventType : String) (r : Resource) :
    (match r with
      | .trigger tr => triggerMatches ref eventType tr
      | _ => false) = true ↔ triggerKey r = some (ref.Name, eventType) := by
  cases r with
  | subscription s => simp [triggerKey]
  | other kind name => simp [triggerKey]
  | trigger tr =>
    obtain ⟨name, broker, filter, sub⟩ := tr
    cases filter with
    | none => simp [triggerKey, triggerMatches]
    | some f =>
      obtain ⟨attrs⟩ := f
      cases attrs with
      | none => simp [triggerKey, triggerMatches]
      | some a => simp [triggerKey, triggerMatches]

theorem HasKnativeTrigger_iff (resources : List Resource) (ref : ObjectReference)
    (eventType : String) :
    HasKnativeTrigger resources (triggerMatches ref eventType) = true ↔
      (ref.Name, eventType) ∈ triggerKeys resources := by
  unfold HasKnativeTrigger triggerKeys
  rw [List.any_eq_true, List.mem_filterMap]
  constructor
  · rintro ⟨r, hr, hm⟩
    exact ⟨r, hr, (triggerMatches_iff ref eventType r).mp hm⟩
  · rintro ⟨r, hr, hk⟩
    exact ⟨r, hr, (triggerMatches_iff ref eventType r).mpr hk⟩

/-- What `createTrigger` does to the resources: nothing when a trigger with the
pair is there, one more object otherwise. -/
theorem createTrigger_resources (K : Deps) (p : Pass) (ref : ObjectReference)
    (eventType : String) :
    (createTrigger K p ref eventType).env = p.env ∧
    (createTrigger K p ref eventType).e.Resources =
      (if (ref.Name, eventType) ∈ triggerKeys p.e.Resources then p.e.Resources
        else p.e.Resources ++ [K.CreateTrigger ref p.e.Integration.Name eventType]) := by
  unfold createTrigger Add
  dsimp only
  by_cases h : (ref.Name, eventType) ∈ triggerKeys p.e.Resources
  · have hf := (HasKnativeTrigger_iff p.e.Resources ref eventType).mpr h
    simp [hf, h]
  · have hf : HasKnativeTrigger p.e.Resources (triggerMatches ref eventType) = false := by
      cases hb : HasKnativeTrigger p.e.Resources (triggerMatches ref eventType) with
      | false => rfl
      | true => exact absurd ((HasKnativeTrigger_iff p.e.Resources ref eventType).mp hb) h
    simp [hf, h]

/-- The handler of the event sources never fails, and what it does to the
trait environment is what `createTrigger` does. -/
theorem eventSourceHandler_spec (K : Deps) (ref : ObjectReference) (loc : URL) (uri : String)
    (p : Pass) :
    ∃ p', eventSourceHandler K ref loc uri p = (p', none) ∧
      p'.e = (createTrigger K p ref (K.ExtractEventType uri)).e := by
  unfold eventSourceHandler
  dsimp only
  split_ifs
  · exact ⟨_, rfl, rfl⟩
  · exact ⟨_, rfl, rfl⟩

/-- The loop over the event sources, when every entry resolves: it ends without
error, the pairs of the triggers stay distinct, the pairs present afterwards
are those present before and those of the entries, and the objects added are
triggers. -/
theorem eventSourcesLoop_triggers (K : Deps)
    (hCT : ∀ ref name eventType,
      triggerKey (K.CreateTrigger ref name eventType) = some (ref.Name, eventType))
    (uris : List String) (p : Pass)
    (hResolve : ∀ uri ∈ uris,
      (resolve K K.CamelServiceTypeEvent p.e.Integration.Namespace uri).isSome = true)
    (hNodup : (triggerKeys p.e.Resources).Nodup) :
    (withServiceDoLoop K false K.CamelServiceTypeEvent K.CamelEndpointKindSource
        (eventSourceHandler K) uris p).2 = none ∧
    (triggerKeys (withServiceDoLoop K false K.CamelServiceTypeEvent K.CamelEndpointKindSource
        (eventSourceHandler K) uris p).1.e.Resources).Nodup ∧
    (∀ k, k ∈ triggerKeys (withServiceDoLoop K false K.CamelServiceTypeEvent
          K.CamelEndpointKindSource (eventSourceHandler K) uris p).1.e.Resources ↔
        k ∈ triggerKeys p.e.Resources ∨
        ∃ uri ∈ uris, eventPair K p.e.Integration.Namespace uri = some k) ∧
    (∃ added, (withServiceDoLoop K false K.CamelServiceTypeEvent K.CamelEndpointKindSource
          (eventSourceHandler K) uris p).1.e.Resources = p.e.Resources ++ added ∧
        ∀ x ∈ added, (triggerKey x).isSome = true) := by
  induction uris generalizing p with
  | nil =>
    refine ⟨rfl, hNodup, ?_, [], ?_, ?_⟩
    · intro k
      simp [withServiceDoLoop]
    · simp [withServiceDoLoop]
    · simp
  | cons uri rest ih =>
    have hres := hResolve uri (List.mem_cons_self _ _)
    obtain ⟨⟨act, url⟩, hsome⟩ := Option.isSome_iff_exists.mp hres
    obtain ⟨ref, hR, hA, hU⟩ := resolve_eq_some K _ _ uri act url hsome
    obtain ⟨p', hH, hpe⟩ := eventSourceHandler_spec K act url uri p
    obtain ⟨-, hRes⟩ := createTrigger_resources K p act (K.ExtractEventType uri)
    have hInt : p'.e.Integration = p.e.Integration := by
      rw [hpe]; exact (createTrigger_grows K p act (K.ExtractEventType uri)).1
    rw [← hpe] at hRes
    have hPair : eventPair K p.e.Integration.Namespace uri
        = some (act.Name, K.ExtractEventType uri) := by
      unfold eventPair
      rw [hsome]
      rfl
    have hstep : withServiceDoLoop K false K.CamelServiceTypeEvent K.CamelEndpointKindSource
        (eventSourceHandler K) (uri :: rest) p =
        withServiceDoLoop K false K.CamelServiceTypeEvent K.CamelEndpointKindSource
        (eventSourceHandler K) rest p' := by
      rw [withServiceDoLoop_cons, hR]
      dsimp only
      simp only [Bool.false_and, Bool.false_eq_true, if_false]
      rw [hA]
      dsimp only
      rw [hU]
      dsimp only
      rw [hH]
    rw [hstep]
    have hResolve' : ∀ u ∈ rest,
        (resolve K K.CamelServiceTypeEvent p'.e.Integration.Namespace u).isSome = true := by
      intro u hu
      rw [hInt]
      exact hResolve u (List.mem_cons_of_mem _ hu)
    by_cases hk : (act.Name, K.ExtractEventType uri) ∈ triggerKeys p.e.Resources
    · rw [if_pos hk] at hRes
      have hNodup' : (triggerKeys p'.e.Resources).Nodup := by rw [hRes]; exact hNodup
      obtain ⟨i1, i2, i3, added, i4, i5⟩ := ih p' hResolve' hNodup'
      refine ⟨i1, i2, ?_, added, ?_, i5⟩
      · intro k
        rw [i3 k, hRes, hInt]
        constructor
        · rintro (h | ⟨u, hu, hp⟩)
          · exact Or.inl h
          · exact Or.inr ⟨u, List.mem_cons_of_mem _ hu, hp⟩
        · rintro (h | ⟨u, hu, hp⟩)
          · exact Or.inl h
          · rcases List.mem_cons.mp hu with rfl | hu'
            · rw [hPair] at hp
              obtain rfl := Option.some.inj hp
              exact Or.inl hk
            · exact Or.inr ⟨u, hu', hp⟩
      · rw [i4, hRes]
    · rw [if_neg hk] at hRes
      have hkeys : triggerKeys p'.e.Resources
          = triggerKeys p.e.Resources ++ [(act.Name, K.ExtractEventType uri)] := by
        rw [hRes]
        unfold triggerKeys
        rw [List.filterMap_append]
        simp [hCT]
      have hNodup' : (triggerKeys p'.e.Resources).Nodup := by
        rw [hkeys]
        refine List.Nodup.append hNodup (List.nodup_singleton _) ?_
        intro a ha hb
        rw [List.mem_singleton] at hb
        exact hk (hb ▸ ha)
      obtain ⟨i1, i2, i3, added, i4, i5⟩ := ih p' hResolve' hNodup'
      refine ⟨i1, i2, ?_,
        K.CreateTrigger act p.e.Integration.Name (K.ExtractEventType uri) :: added, ?_, ?_⟩
      · intro k
        rw [i3 k, hkeys, hInt, List.mem_append, List.mem_singleton]
        constructor
        · rintro ((h | h) | ⟨u, hu, hp⟩)
          · exact Or.inl h
          · exact Or.inr ⟨uri, List.mem_cons_self _ _, by rw [hPair, h]⟩
          · exact Or.inr ⟨u, List.mem_cons_of_mem _ hu, hp⟩
        · rintro (h | ⟨u, hu, hp⟩)
          · exact Or.inl (Or.inl h)
          · rcases List.mem_cons.mp hu with rfl | hu'
            · rw [hPair] at hp
              exact Or.inl (Or.inr (Option.some.inj hp).symm)
            · exact Or.inr ⟨u, hu', hp⟩
      · rw [i4, hRes]
        simp
      · intro x hx
        rcases List.mem_cons.mp hx with rfl | hx'
        · rw [hCT]; rfl
        · exact i5 x hx'

theorem withServiceDoLoop_keeps_e (K : Deps) (skip : Bool) (serviceType endpointKind : String)
    (gen : Handler) (hgen : ∀ ref loc uri (p : Pass), (gen ref loc uri p).1.e = p.e)
    (uris : List String) (p : Pass) :
    (withServiceDoLoop K skip serviceType endpointKind gen uris p).1.e = p.e := by
  induction uris generalizing p with
  | nil => rfl
  | cons uri rest ih =>
    rw [withServiceDoLoop_cons]
    cases hR : K.ExtractObjectReference uri with
    | error err => rfl
    | ok ref =>
      dsimp only
      split_ifs with hs
      · exact ih p
      · cases hA : K.GetAddressableReference (K.FillMissingReferenceData serviceType ref)
            p.e.Integration.Namespace ref.Name with
        | error err =>
          dsimp only
          split_ifs <;> rfl
        | ok actualRef =>
          dsimp only
          cases hU : K.GetSinkURL actualRef p.e.Integration.Namespace with
          | error err => rfl
          | ok targetURL =>
            dsimp only
            have hg := hgen actualRef targetURL uri p
            rcases hG : gen actualRef targetURL uri p with ⟨p', _ | err⟩
            · rw [hG] at hg
              exact (ih p').trans hg
            · rw [hG] at hg
              exact hg

theorem sinkHandler_keeps_e (K : Deps) (serviceType : String) (ref : ObjectReference)
    (loc : URL) (uri : String) (p : Pass) :
    (sinkHandler K serviceType ref loc uri p).1.e = p.e := by
  unfold sinkHandler
  split <;> rfl

/-- The trait environment `configureEvents` leaves is the one its pass over the
event sources leaves: the pass over the event sinks does not touch it. -/
theorem configureEvents_e (K : Deps) (t : knativeTrait) (p : Pass) :
    (configureEvents K t p).1.e =
      (withServiceDo K false p t.EventSources K.CamelServiceTypeEvent
        K.CamelEndpointKindSource (eventSourceHandler K)).1.e := by
  unfold configureEvents
  rcases hS : withServiceDo K false p t.EventSources K.CamelServiceTypeEvent
    K.CamelEndpointKindSource (eventSourceHandler K) with ⟨p1, _ | err⟩
  · dsimp only
    have h2 := withServiceDoLoop_keeps_e K true K.CamelServiceTypeEvent K.CamelEndpointKindSink
      (sinkHandler K K.CamelServiceTypeEvent) (sinkHandler_keeps_e K K.CamelServiceTypeEvent)
      (extractServices K t.EventSinks K.CamelServiceTypeEvent) p1
    rcases hK : ifServiceMissingDo K p1 t.EventSinks K.CamelServiceTypeEvent
      K.CamelEndpointKindSink (sinkHandler K K.CamelServiceTypeEvent) with ⟨p2, _ | err⟩
    · unfold ifServiceMissingDo withServiceDo at hK
      rw [hK] at h2
      exact h2
    · unfold ifServiceMissingDo withServiceDo at hK
      rw [hK] at h2
      exact h2
  · rfl

/-- Claim C3: when the broker of every entry of the event sources resolves and
no two triggers among the resources share the pair (broker name, event-type
filter value), the pass of `configureEvents` over the event sources ends
without error having called `createTrigger` for every entry, whatever the
descriptor already contains; afterwards no two triggers share a pair, the
pairs present are exactly those present before and those of the entries,
and the resources are the former ones followed by new objects, each a
trigger whose pair was not present before.  The creation of a trigger is a
parameter: `hCT` says that it carries the name of the broker and the event
type. -/
theorem configureEvents_triggers (K : Deps) (t : knativeTrait) (p : Pass)
    (hCT : ∀ ref name eventType,
      triggerKey (K.CreateTrigger ref name eventType) = some (ref.Name, eventType))
    (hResolve : ∀ uri ∈ extractServices K t.EventSources K.CamelServiceTypeEvent,
      (resolve K K.CamelServiceTypeEvent p.e.Integration.Namespace uri).isSome = true)
    (hNodup : (triggerKeys p.e.Resources).Nodup) :
    (withServiceDo K false p t.EventSources K.CamelServiceTypeEvent
      K.CamelEndpointKindSource (eventSourceHandler K)).2 = none ∧
    (triggerKeys (configureEvents K t p).1.e.Resources).Nodup ∧
    (∀ k, k ∈ triggerKeys (configureEvents K t p).1.e.Resources ↔
      k ∈ triggerKeys p.e.Resources ∨
      ∃ uri ∈ extractServices K t.EventSources K.CamelServiceTypeEvent,
        eventPair K p.e.Integration.Namespace uri = some k) ∧
    (∃ added, (configureEvents K t p).1.e.Resources = p.e.Resources ++ added ∧
      ∀ x ∈ added, ∃ k, triggerKey x = some k ∧ k ∉ triggerKeys p.e.Resources) := by
  obtain ⟨i1, i2, i3, added, i4, i5⟩ :=
    eventSourcesLoop_triggers K hCT
      (extractServices K t.EventSources K.CamelServiceTypeEvent) p hResolve hNodup
  rw [configureEvents_e]
  unfold withServiceDo
  refine ⟨i1, i2, i3, added, i4, ?_⟩
  intro x hx
  obtain ⟨k, hk⟩ := Option.isSome_iff_exists.mp (i5 x hx)
  refine ⟨k, hk, ?_⟩
  intro hmem
  rw [i4] at i2
  unfold triggerKeys at i2 hmem
  rw [List.filterMap_append] at i2
  have hdis := (List.nodup_append.mp i2).2.2
  exact hdis hmem (List.mem_filterMap.mpr ⟨x, hx, hk⟩)

/-- Witness of `configureEvents_triggers`: in the sample cluster, from an empty
descriptor and no resources, the event sources `broker1/typeA,broker1/typeB`
give exactly two triggers on `broker1`, one per event type, and
`broker1/typeA,broker1/typeA` gives exactly one; in both cases a single
service definition, for `broker1`, is added. -/
theorem configureEvents_triggers_witness :
    (triggerKeys (configureEvents Sample.cluster { EventSources := "broker1/typeA,broker1/typeB" }
      ⟨⟨[]⟩, Sample.environment []⟩).1.e.Resources).Nodup ∧
    (configureEvents Sample.cluster { EventSources := "broker1/typeA,broker1/typeB" }
      ⟨⟨[]⟩, Sample.environment []⟩).1.e.Resources
      = [Sample.CreateTrigger { Name := "broker1" } "it" "typeA",
         Sample.CreateTrigger { Name := "broker1" } "it" "typeB"] ∧
    (configureEvents Sample.cluster { EventSources := "broker1/typeA,broker1/typeA" }
      ⟨⟨[]⟩, Sample.environment []⟩).1.e.Resources
      = [Sample.CreateTrigger { Name := "broker1" } "it" "typeA"] ∧
    (configureEvents Sample.cluster { EventSources := "broker1/typeA,broker1/typeB" }
      ⟨⟨[]⟩, Sample.environment []⟩).1.env.Services.map (fun s => s.Name) = ["broker1"] ∧
    (configureEvents Sample.cluster { EventSources := "broker1/typeA,broker1/typeA" }
      ⟨⟨[]⟩, Sample.environment []⟩).1.env.Services.map (fun s => s.Name) = ["broker1"] :=
  ⟨(configureEvents_triggers Sample.cluster { EventSources := "broker1/typeA,broker1/typeB" }
      ⟨⟨[]⟩, Sample.environment []⟩ (fun _ _ _ => rfl) (by decide) (by decide)).2.1,
    by decide, by decide, by decide, by decide⟩

/-! ## Channel sources and the history filter -/

theorem StringMap.mem_set (m : StringMap) (k v : String) : (k, v) ∈ StringMap.set m k v := by
  induction m with
  | nil => simp [StringMap.set]
  | cons kv rest ih =>
    obtain ⟨k', v'⟩ := kv
    unfold StringMap.set
    split_ifs
    · exact List.mem_cons_self _ _
    · exact List.mem_cons_of_mem _ ih

theorem Configure_ok_true (K : Deps) (t : knativeTrait) (e : Environment)
    (h : (Configure K t e).2 = .ok true) :
    t.Enabled ≠ some false ∧ e.Integration.Phase = K.IntegrationPhaseDeploying := by
  constructor
  · intro hE
    simp [Configure, hE] at h
  · by_contra hP
    have h2 : IntegrationInPhase e K.IntegrationPhaseDeploying = false := by
      simp [IntegrationInPhase, hP]
    unfold Configure at h
    rw [h2] at h
    simp only [Bool.not_false, if_true] at h
    split_ifs at h <;> simp at h

/-- The handler of the channel sources never fails; it appends one definition,
named after the resolved channel, that carries the host of the channel
under the history key when the filter flag is true, and only the four
standard entries otherwise. -/
theorem channelSourceHandler_spec (K : Deps) (t : knativeTrait) (ref : ObjectReference)
    (loc : URL) (uri : String) (p : Pass) :
    ∃ svc p', channelSourceHandler K t ref loc uri p = (p', none) ∧
      p'.env.Services = p.env.Services ++ [svc] ∧
      p'.e.Integration = p.e.Integration ∧
      svc.Name = ref.Name ∧
      svc.ServiceType = K.CamelServiceTypeChannel ∧
      (t.FilterSourceChannels = some true → (historyKey K, loc.Host) ∈ svc.Metadata) ∧
      (t.FilterSourceChannels ≠ some true → svc.Metadata =
        [(K.CamelMetaServicePath, "/"),
         (K.CamelMetaEndpointKind, K.CamelEndpointKindSource),
         (K.CamelMetaKnativeAPIVersion, ref.APIVersion),
         (K.CamelMetaKnativeKind, ref.Kind)]) := by
  unfold channelSourceHandler createSubscription Add
  dsimp only
  refine ⟨_, _, rfl, rfl, rfl, rfl, rfl, ?_, ?_⟩
  · intro h
    have h' : t.FilterSourceChannels ≠ none ∧ t.FilterSourceChannels = some true :=
      ⟨by rw [h]; simp, h⟩
    rw [if_pos h']
    exact StringMap.mem_set _ _ _
  · intro h
    have h' : ¬ (t.FilterSourceChannels ≠ none ∧ t.FilterSourceChannels = some true) :=
      fun hh => h hh.2
    rw [if_neg h']

theorem ContainsService_singleton_ne (K : Deps) (svc : CamelServiceDefinition)
    (name endpointKind serviceType apiVersion kind : String) (h : svc.Name ≠ name) :
    ContainsService K ⟨[svc]⟩ name endpointKind serviceType apiVersion kind = false := by
  simp [ContainsService, identity, h]

/-- One turn of the loop for an entry that resolves and is not skipped, with a
handler that succeeds: the loop goes on from the state the handler leaves. -/
theorem withServiceDoLoop_step (K : Deps) (skip : Bool) (serviceType endpointKind : String)
    (gen : Handler) (uri : String) (rest : List String) (p p' : Pass)
    (actualRef : ObjectReference) (targetURL : URL)
    (hResolve : resolve K serviceType p.e.Integration.Namespace uri = some (actualRef, targetURL))
    (hNotSkipped : ∀ ref, K.ExtractObjectReference uri = .ok ref →
      (skip && ContainsService K p.env ref.Name endpointKind serviceType ref.APIVersion ref.Kind)
        = false)
    (hGen : gen actualRef targetURL uri p = (p', none)) :
    withServiceDoLoop K skip serviceType endpointKind gen (uri :: rest) p =
      withServiceDoLoop K skip serviceType endpointKind gen rest p' := by
  obtain ⟨ref, hR, hA, hU⟩ := resolve_eq_some K _ _ uri actualRef targetURL hResolve
  rw [withServiceDoLoop_cons, hR]
  dsimp only
  rw [hNotSkipped ref hR]
  simp only [Bool.false_eq_true, if_false]
  rw [hA]
  dsimp only
  rw [hU]
  dsimp only
  rw [hGen]

theorem configureChannels_sources_prefix (K : Deps) (t : knativeTrait) (p : Pass) :
    (ifServiceMissingDo K p t.ChannelSources K.CamelServiceTypeChannel
      K.CamelEndpointKindSource (channelSourceHandler K t)).1.env.Services <+:
      (configureChannels K t p).1.env.Services := by
  unfold configureChannels
  rcases hS : ifServiceMissingDo K p t.ChannelSources K.CamelServiceTypeChannel
    K.CamelEndpointKindSource (channelSourceHandler K t) with ⟨p1, _ | err⟩
  · dsimp only
    have h2 := ifServiceMissingDo_grows K p1 t.ChannelSinks K.CamelServiceTypeChannel
      K.CamelEndpointKindSink (sinkHandler K K.CamelServiceTypeChannel)
      (sinkHandler_grows K K.CamelServiceTypeChannel)
    rcases hK : ifServiceMissingDo K p1 t.ChannelSinks K.CamelServiceTypeChannel
      K.CamelEndpointKindSink (sinkHandler K K.CamelServiceTypeChannel) with ⟨p2, _ | err⟩
    · rw [hK] at h2
      exact h2.2.2.2
    · rw [hK] at h2
      exact h2.2.2.2
  · exact List.prefix_refl _

theorem extractServices_a_b (K : Deps) (serviceType : String) :
    extractServices K "a,b" serviceType =
      [K.NormalizeToURI serviceType "a", K.NormalizeToURI serviceType "b"] := rfl

theorem extractServices_a (K : Deps) (serviceType : String) :
    extractServices K "a" serviceType = [K.NormalizeToURI serviceType "a"] := rfl

/-- Claim C4: with auto enabled and the filter flag unset on entry, let
`Configure` return true and then run `configureChannels` on an empty
descriptor.  When channel-sources is `a,b`, both channels resolve and `b`
does not name the channel `a` resolved to, the pass over the channel sources
adds exactly two definitions, one per channel, and each carries under the
key made of the filter prefix and `ce-knativehistory` the host of the URL
its channel resolved to.  When channel-sources is `a`, the pass adds one
definition, which carries no entry under that key (the key is not one of
the four standard metadata keys).  In both cases these definitions are the
first ones of the descriptor `configureChannels` leaves. -/
theorem configureChannels_historyFilter (K : Deps) (t : knativeTrait) (e : Environment)
    (hAuto : t.Auto = none ∨ t.Auto = some true)
    (hUnset : t.FilterSourceChannels = none)
    (hRun : (Configure K t e).2 = .ok true)
    (hKey : historyKey K ∉ [K.CamelMetaServicePath, K.CamelMetaEndpointKind,
      K.CamelMetaKnativeAPIVersion, K.CamelMetaKnativeKind]) :
    (t.ChannelSources = "a,b" → ∀ actA urlA actB urlB,
      resolve K K.CamelServiceTypeChannel e.Integration.Namespace
        (K.NormalizeToURI K.CamelServiceTypeChannel "a") = some (actA, urlA) →
      resolve K K.CamelServiceTypeChannel e.Integration.Namespace
        (K.NormalizeToURI K.CamelServiceTypeChannel "b") = some (actB, urlB) →
      (∀ refB, K.ExtractObjectReference (K.NormalizeToURI K.CamelServiceTypeChannel "b")
        = .ok refB → actA.Name ≠ refB.Name) →
      ∃ svcA svcB,
        (ifServiceMissingDo K ⟨⟨[]⟩, e⟩ (Configure K t e).1.ChannelSources
          K.CamelServiceTypeChannel K.CamelEndpointKindSource
          (channelSourceHandler K (Configure K t e).1)).2 = none ∧
        (ifServiceMissingDo K ⟨⟨[]⟩, e⟩ (Configure K t e).1.ChannelSources
          K.CamelServiceTypeChannel K.CamelEndpointKindSource
          (channelSourceHandler K (Configure K t e).1)).1.env.Services = [svcA, svcB] ∧
        [svcA, svcB] <+: (configureChannels K (Configure K t e).1 ⟨⟨[]⟩, e⟩).1.env.Services ∧
        svcA.Name = actA.Name ∧ (historyKey K, urlA.Host) ∈ svcA.Metadata ∧
        svcB.Name = actB.Name ∧ (historyKey K, urlB.Host) ∈ svcB.Metadata) ∧
    (t.ChannelSources = "a" → ∀ actA urlA,
      resolve K K.CamelServiceTypeChannel e.Integration.Namespace
        (K.NormalizeToURI K.CamelServiceTypeChannel "a") = some (actA, urlA) →
      ∃ svcA,
        (ifServiceMissingDo K ⟨⟨[]⟩, e⟩ (Configure K t e).1.ChannelSources
          K.CamelServiceTypeChannel K.CamelEndpointKindSource
          (channelSourceHandler K (Configure K t e).1)).2 = none ∧
        (ifServiceMissingDo K ⟨⟨[]⟩, e⟩ (Configure K t e).1.ChannelSources
          K.CamelServiceTypeChannel K.CamelEndpointKindSource
          (channelSourceHandler K (Configure K t e).1)).1.env.Services = [svcA] ∧
        [svcA] <+: (configureChannels K (Configure K t e).1 ⟨⟨[]⟩, e⟩).1.env.Services ∧
        svcA.Name = actA.Name ∧ ∀ v, (historyKey K, v) ∉ svcA.Metadata) := by
  obtain ⟨hEnabled, hPhase⟩ := Configure_ok_true K t e hRun
  obtain ⟨c, hc⟩ := Configure_fst K t e hEnabled hPhase hAuto
  obtain ⟨p1, -, -, -, -, -, p7, -⟩ := populateLists_fields K t e
  obtain ⟨d1, -, -, -, -, -, -, d8⟩ := deriveFilter_fields (populateLists K t e)
  have hCS : (Configure K t e).1.ChannelSources = if t.ChannelSources = "" then
      discover K e (fun m => m.FromURIs) K.CamelServiceTypeChannel else t.ChannelSources := by
    rw [hc]; simp only [d1, p1]
  have hF : (Configure K t e).1.FilterSourceChannels =
      if 1 < (strings.Split (if t.ChannelSources = "" then
          discover K e (fun m => m.FromURIs) K.CamelServiceTypeChannel
          else t.ChannelSources) ',').length then some true
      else none := by
    rw [hc]; simp only [d8, p7, p1, hUnset]
  have hprefix := configureChannels_sources_prefix K (Configure K t e).1 ⟨⟨[]⟩, e⟩
  generalize configureChannels K (Configure K t e).1 ⟨⟨[]⟩, e⟩ = final at hprefix
  clear hc
  generalize (Configure K t e).1 = t' at hCS hF hprefix ⊢
  constructor
  · intro hab actA urlA actB urlB hA hB hDistinct
    have hCS' : t'.ChannelSources = "a,b" := by rw [hCS, hab]; rfl
    have hF' : t'.FilterSourceChannels = some true := by rw [hF, hab]; rfl
    rw [hCS'] at hprefix ⊢
    obtain ⟨svcA, pA, gA, sA, iA, nA, -, mA, -⟩ :=
      channelSourceHandler_spec K t' actA urlA (K.NormalizeToURI K.CamelServiceTypeChannel "a")
        ⟨⟨[]⟩, e⟩
    obtain ⟨svcB, pB, gB, sB, iB, nB, -, mB, -⟩ :=
      channelSourceHandler_spec K t' actB urlB (K.NormalizeToURI K.CamelServiceTypeChannel "b") pA
    have hrun : ifServiceMissingDo K ⟨⟨[]⟩, e⟩ "a,b" K.CamelServiceTypeChannel
        K.CamelEndpointKindSource (channelSourceHandler K t') = (pB, none) := by
      unfold ifServiceMissingDo withServiceDo
      rw [extractServices_a_b]
      rw [withServiceDoLoop_step K true _ _ _ _ _ ⟨⟨[]⟩, e⟩ pA actA urlA hA
        (fun ref _ => by simp [ContainsService]) gA]
      have hA' : pA.env = ⟨[svcA]⟩ := by
        cases hpe : pA.env with
        | mk services => rw [hpe] at sA; simp at sA; rw [sA]
      rw [withServiceDoLoop_step K true _ _ _ _ _ pA pB actB urlB (by rw [iA]; exact hB)
        (fun ref hR => by
          rw [hA', ContainsService_singleton_ne K svcA _ _ _ _ _
            (by rw [nA]; exact hDistinct ref hR)]
          rfl) gB]
      rfl
    rw [hrun] at hprefix ⊢
    have hSB : pB.env.Services = [svcA, svcB] := by
      rw [sB, sA]; rfl
    refine ⟨svcA, svcB, rfl, hSB, ?_, nA, mA hF', nB, mB hF'⟩
    rw [← hSB]
    exact hprefix
  · intro ha actA urlA hA
    have hCS' : t'.ChannelSources = "a" := by rw [hCS, ha]; rfl
    have hF' : t'.FilterSourceChannels ≠ some true := by
      rw [hF, ha, if_neg (by decide : ¬ ("a" = ""))]
      decide
    rw [hCS'] at hprefix ⊢
    obtain ⟨svcA, pA, gA, sA, iA, nA, -, -, mA⟩ :=
      channelSourceHandler_spec K t' actA urlA (K.NormalizeToURI K.CamelServiceTypeChannel "a")
        ⟨⟨[]⟩, e⟩
    have hrun : ifServiceMissingDo K ⟨⟨[]⟩, e⟩ "a" K.CamelServiceTypeChannel
        K.CamelEndpointKindSource (channelSourceHandler K t') = (pA, none) := by
      unfold ifServiceMissingDo withServiceDo
      rw [extractServices_a]
      rw [withServiceDoLoop_step K true _ _ _ _ _ ⟨⟨[]⟩, e⟩ pA actA urlA hA
        (fun ref _ => by simp [ContainsService]) gA]
      rfl
    rw [hrun] at hprefix ⊢
    have hSA : pA.env.Services = [svcA] := by rw [sA]; rfl
    refine ⟨svcA, rfl, hSA, ?_, nA, ?_⟩
    · rw [← hSA]; exact hprefix
    · intro v hv
      rw [mA hF'] at hv
      simp only [List.mem_cons, Prod.mk.injEq, List.mem_nil_iff, or_false] at hv
      simp only [List.mem_cons, List.mem_nil_iff, or_false, not_or] at hKey
      rcases hv with h | h | h | h
      · exact hKey.1 h.1
      · exact hKey.2.1 h.1
      · exact hKey.2.2.1 h.1
      · exact hKey.2.2.2 h.1

/-- Witness of `configureChannels_historyFilter`: in the sample cluster the
channel-sources `a,b` give two source definitions that carry, under
`filter.ce-knativehistory`, the hosts `a.ns.svc` and `b.ns.svc`. -/
theorem configureChannels_historyFilter_witness :
    (∃ svcA svcB,
      (ifServiceMissingDo Sample.cluster ⟨⟨[]⟩, Sample.environment []⟩
        (Configure Sample.cluster { ChannelSources := "a,b" }
          (Sample.environment [])).1.ChannelSources
        "channel" "source"
        (channelSourceHandler Sample.cluster
          (Configure Sample.cluster { ChannelSources := "a,b" }
            (Sample.environment [])).1)).1.env.Services = [svcA, svcB] ∧
      ("filter.ce-knativehistory", "a.ns.svc") ∈ svcA.Metadata ∧
      ("filter.ce-knativehistory", "b.ns.svc") ∈ svcB.Metadata) ∧
    (configureChannels Sample.cluster
        (Configure Sample.cluster { ChannelSources := "a" } (Sample.environment [])).1
        ⟨⟨[]⟩, Sample.environment []⟩).1.env.Services.map
      (fun svc => svc.Metadata.map (fun kv => kv.1))
      = [["service.path", "endpoint.kind", "knative.apiVersion", "knative.kind"]] := by
  constructor
  · obtain ⟨svcA, svcB, -, h2, -, -, h5, -, h7⟩ :=
      (configureChannels_historyFilter Sample.cluster { ChannelSources := "a,b" }
        (Sample.environment []) (by decide) (by decide) rfl (by decide)).1 rfl
        { Kind := "InMemoryChannel", Namespace := "ns", Name := "a",
          APIVersion := "messaging.knative.dev/v1alpha1" }
        { Scheme := "http", Host := "a.ns.svc", Path := "/" }
        { Kind := "InMemoryChannel", Namespace := "ns", Name := "b",
          APIVersion := "messaging.knative.dev/v1alpha1" }
        { Scheme := "http", Host := "b.ns.svc", Path := "/" }
        rfl rfl
        (by
          intro refB hB
          have hB' : (Except.ok { Name := "b" } : Except Error ObjectReference)
              = Except.ok refB := hB
          injection hB' with hB''
          rw [← hB'']
          decide)
    exact ⟨svcA, svcB, h2, h5, h7⟩
  · decide

/-! ## Deduplication of the service definitions -/

/-- The check of the endpoint sources looks for a definition named after the
whole service URI: it finds none in a descriptor where no definition bears
that name. -/
theorem ContainsService_of_no_name (K : Deps) (env : CamelEnvironment)
    (name endpointKind serviceType apiVersion kind : String)
    (h : ∀ svc ∈ env.Services, svc.Name ≠ name) :
    ContainsService K env name endpointKind serviceType apiVersion kind = false := by
  unfold ContainsService
  rw [List.any_eq_false]
  intro svc hsvc
  have := h svc hsvc
  simp [identity, this]

/-- The loop over the endpoint sources, for an endpoint whose reference name is
not the service URI itself and is listed twice: when no definition of the
descriptor bears the URI as its name, two definitions are appended, equal to
each other. -/
theorem endpointSourcesLoop_twice (K : Deps) (endpoint : String) (ref : ObjectReference)
    (p : Pass)
    (hRef : K.ExtractObjectReference endpoint = .ok ref)
    (hName : ref.Name ≠ endpoint)
    (hEnv : ∀ svc ∈ p.env.Services, svc.Name ≠ endpoint) :
    (endpointSourcesLoop K [endpoint, endpoint] p).2 = none ∧
    (endpointSourcesLoop K [endpoint, endpoint] p).1.env.Services =
      p.env.Services ++
        [{ Name := ref.Name, Host := "0.0.0.0", Port := 8080,
           ServiceType := K.CamelServiceTypeEndpoint,
           Metadata :=
             [(K.CamelMetaServicePath, "/"),
              (K.CamelMetaEndpointKind, K.CamelEndpointKindSource),
              (K.CamelMetaKnativeAPIVersion, K.servingGroupVersion),
              (K.CamelMetaKnativeKind, "Service")] },
         { Name := ref.Name, Host := "0.0.0.0", Port := 8080,
           ServiceType := K.CamelServiceTypeEndpoint,
           Metadata :=
             [(K.CamelMetaServicePath, "/"),
              (K.CamelMetaEndpointKind, K.CamelEndpointKindSource),
              (K.CamelMetaKnativeAPIVersion, K.servingGroupVersion),
              (K.CamelMetaKnativeKind, "Service")] }] := by
  rw [endpointSourcesLoop, hRef]
  dsimp only
  rw [ContainsService_of_no_name K p.env endpoint _ _ _ _ hEnv]
  simp only [Bool.false_eq_true, if_false]
  rw [endpointSourcesLoop, hRef]
  dsimp only
  rw [ContainsService_of_no_name K _ endpoint _ _ _ _ (by
    intro svc hsvc
    rcases List.mem_append.mp hsvc with h | h
    · exact hEnv svc h
    · rw [List.mem_singleton] at h
      rw [h]
      exact hName)]
  simp only [Bool.false_eq_true, if_false]
  rw [endpointSourcesLoop]
  exact ⟨rfl, by simp⟩

/-- Claim C2 does not hold of the code: in the sample cluster, from an empty
descriptor, the endpoint-sources `foo,foo` leave two source definitions of
the same identity (name `foo`, role source, category endpoint, the serving
Service API version and kind); and the endpoint-sources `foo` add a second
such definition to a descriptor that already holds one. -/
theorem configureEndpoints_duplicate_sources :
    (configureEndpoints Sample.cluster { EndpointSources := "foo,foo" }
      ⟨⟨[]⟩, Sample.environment []⟩).2 = none ∧
    (configureEndpoints Sample.cluster { EndpointSources := "foo,foo" }
      ⟨⟨[]⟩, Sample.environment []⟩).1.env.Services.map (identity Sample.cluster)
      = [("foo", "source", "endpoint", "serving.knative.dev/v1beta1", "Service"),
         ("foo", "source", "endpoint", "serving.knative.dev/v1beta1", "Service")] ∧
    (configureEndpoints Sample.cluster { EndpointSources := "foo" }
      (configureEndpoints Sample.cluster { EndpointSources := "foo" }
        ⟨⟨[]⟩, Sample.environment []⟩).1).1.env.Services.map (identity Sample.cluster)
      = [("foo", "source", "endpoint", "serving.knative.dev/v1beta1", "Service"),
         ("foo", "source", "endpoint", "serving.knative.dev/v1beta1", "Service")] := by
  decide

theorem StringMap.get_set_ne (m : StringMap) (k v k' : String) (h : k ≠ k') :
    StringMap.get (StringMap.set m k v) k' = StringMap.get m k' := by
  induction m with
  | nil => simp [StringMap.set, StringMap.get, h]
  | cons kv rest ih =>
    obtain ⟨k0, v0⟩ := kv
    unfold StringMap.set
    by_cases h0 : k0 = k
    · subst h0
      simp [StringMap.get, h]
    · rw [if_neg h0]
      unfold StringMap.get
      split_ifs
      · rfl
      · exact ih


theorem resolve_of (K : Deps) (serviceType namespace_ uri : String)
    (ref actualRef : ObjectReference) (targetURL : URL)
    (hR : K.ExtractObjectReference uri = .ok ref)
    (hA : K.GetAddressableReference (K.FillMissingReferenceData serviceType ref) namespace_
      ref.Name = .ok actualRef)
    (hU : K.GetSinkURL actualRef namespace_ = .ok targetURL) :
    resolve K serviceType namespace_ uri = some (actualRef, targetURL) := by
  unfold resolve
  rw [hR]
  dsimp only
  rw [hA]
  dsimp only
  rw [hU]

theorem ContainsService_eq_false (K : Deps) (env : CamelEnvironment)
    (name endpointKind serviceType apiVersion kind : String)
    (h : ContainsService K env name endpointKind serviceType apiVersion kind = false)
    (svc : CamelServiceDefinition) (hsvc : svc ∈ env.Services)
    (hName : svc.Name = name)
    (hRole : svc.Metadata.get K.CamelMetaEndpointKind = endpointKind)
    (hType : svc.ServiceType = serviceType)
    (hVersion : apiVersion = "" ∨ svc.Metadata.get K.CamelMetaKnativeAPIVersion = apiVersion)
    (hKind : kind = "" ∨ svc.Metadata.get K.CamelMetaKnativeKind = kind) : False := by
  unfold ContainsService at h
  rw [List.any_eq_false] at h
  apply h svc hsvc
  simp only [Bool.and_eq_true, Bool.or_eq_true, decide_eq_true_eq]
  exact ⟨⟨⟨⟨hName, hRole⟩, hType⟩, hVersion⟩, hKind⟩

theorem ContainsService_of_mem (K : Deps) (env : CamelEnvironment)
    (name endpointKind serviceType apiVersion kind : String)
    (svc : CamelServiceDefinition) (hsvc : svc ∈ env.Services)
    (hName : svc.Name = name)
    (hRole : svc.Metadata.get K.CamelMetaEndpointKind = endpointKind)
    (hType : svc.ServiceType = serviceType)
    (hVersion : apiVersion = "" ∨ svc.Metadata.get K.CamelMetaKnativeAPIVersion = apiVersion)
    (hKind : kind = "" ∨ svc.Metadata.get K.CamelMetaKnativeKind = kind) :
    ContainsService K env name endpointKind serviceType apiVersion kind = true := by
  unfold ContainsService
  rw [List.any_eq_true]
  refine ⟨svc, hsvc, ?_⟩
  simp only [Bool.and_eq_true, Bool.or_eq_true, decide_eq_true_eq]
  exact ⟨⟨⟨⟨hName, hRole⟩, hType⟩, hVersion⟩, hKind⟩

/-- The loop of `ifServiceMissingDo` keeps the identities of the descriptor
distinct, for every category and role and every list, with a handler that
leaves the descriptor alone or appends one definition that records the
reference it is handed, when the registry answers with a reference that
completes the one it is asked for. -/
theorem withServiceDoLoop_identities (K : Deps) (serviceType endpointKind : String)
    (gen : Handler)
    (hResolver : ∀ ref namespace_ actualRef,
      K.GetAddressableReference (K.FillMissingReferenceData serviceType ref) namespace_ ref.Name
        = .ok actualRef → completes ref actualRef)
    (hGen : ∀ ref loc uri (p : Pass),
      (gen ref loc uri p).1.env.Services = p.env.Services ∨
      ∃ svc, (gen ref loc uri p).1.env.Services = p.env.Services ++ [svc] ∧
        identity K svc = (ref.Name, endpointKind, serviceType, ref.APIVersion, ref.Kind))
    (uris : List String) (p : Pass)
    (hNodup : (p.env.Services.map (identity K)).Nodup) :
    ((withServiceDoLoop K true serviceType endpointKind gen uris p).1.env.Services.map
      (identity K)).Nodup := by
  induction uris generalizing p with
  | nil => exact hNodup
  | cons uri rest ih =>
    rw [withServiceDoLoop_cons]
    cases hR : K.ExtractObjectReference uri with
    | error err => exact hNodup
    | ok ref =>
      dsimp only
      split_ifs with hs
      · exact ih p hNodup
      · cases hA : K.GetAddressableReference (K.FillMissingReferenceData serviceType ref)
            p.e.Integration.Namespace ref.Name with
        | error err =>
          dsimp only
          split_ifs <;> exact hNodup
        | ok actualRef =>
          dsimp only
          cases hU : K.GetSinkURL actualRef p.e.Integration.Namespace with
          | error err => exact hNodup
          | ok targetURL =>
            dsimp only
            have hc : ContainsService K p.env ref.Name endpointKind serviceType
                ref.APIVersion ref.Kind = false := by
              simpa using hs
            obtain ⟨cName, cVersion, cKind⟩ := hResolver ref _ actualRef hA
            have hNodup' : (((gen actualRef targetURL uri p).1.env.Services).map
                (identity K)).Nodup := by
              rcases hGen actualRef targetURL uri p with h | ⟨svc, h, hId⟩
              · rw [h]; exact hNodup
              · rw [h, List.map_append, List.map_singleton]
                refine List.Nodup.append hNodup (List.nodup_singleton _) ?_
                intro a ha hb
                rw [List.mem_singleton] at hb
                subst hb
                obtain ⟨svc0, hsvc0, hId0⟩ := List.mem_map.mp ha
                rw [hId] at hId0
                simp only [identity, Prod.mk.injEq] at hId0
                obtain ⟨e1, e2, e3, e4, e5⟩ := hId0
                exact ContainsService_eq_false K p.env _ _ _ _ _ hc svc0 hsvc0
                  (e1.trans cName) e2 e3
                  (cVersion.imp id (fun h => e4.trans h))
                  (cKind.imp id (fun h => e5.trans h))
            rcases hG : gen actualRef targetURL uri p with ⟨p', _ | err⟩
            · rw [hG] at hNodup'
              exact ih p' hNodup'
            · rw [hG] at hNodup'
              exact hNodup'

/-- A target named twice is recorded once: when an entry that resolves is not
yet in the descriptor and the handler records the resolved reference, the
second occurrence of the entry is skipped. -/
theorem withServiceDoLoop_twice (K : Deps) (serviceType endpointKind : String)
    (gen : Handler) (uri : String) (p p' : Pass) (ref actualRef : ObjectReference)
    (targetURL : URL) (svc : CamelServiceDefinition)
    (hRef : K.ExtractObjectReference uri = .ok ref)
    (hResolve : resolve K serviceType p.e.Integration.Namespace uri = some (actualRef, targetURL))
    (hCompletes : completes ref actualRef)
    (hFirst : ContainsService K p.env ref.Name endpointKind serviceType ref.APIVersion ref.Kind
      = false)
    (hGen : gen actualRef targetURL uri p = (p', none))
    (hSvc : p'.env.Services = p.env.Services ++ [svc])
    (hId : identity K svc =
      (actualRef.Name, endpointKind, serviceType, actualRef.APIVersion, actualRef.Kind)) :
    withServiceDoLoop K true serviceType endpointKind gen [uri, uri] p = (p', none) := by
  rw [withServiceDoLoop_step K true _ _ gen uri [uri] p p' actualRef targetURL hResolve
    (fun r hr => by
      rw [hRef] at hr
      injection hr with hr
      subst hr
      rw [hFirst]
      rfl) hGen]
  rw [withServiceDoLoop_cons, hRef]
  dsimp only
  simp only [identity, Prod.mk.injEq] at hId
  obtain ⟨e1, e2, e3, e4, e5⟩ := hId
  obtain ⟨cName, cVersion, cKind⟩ := hCompletes
  have hc : ContainsService K p'.env ref.Name endpointKind serviceType ref.APIVersion ref.Kind
      = true :=
    ContainsService_of_mem K p'.env _ _ _ _ _ svc (by rw [hSvc]; simp)
      (e1.trans cName) e2 e3
      (cVersion.imp id (fun h => e4.trans h))
      (cKind.imp id (fun h => e5.trans h))
  rw [hc]
  simp only [Bool.and_self, if_true]
  rw [withServiceDoLoop]

/-- The definition the handler of the channel sources appends has the identity
of the reference it is handed, when the metadata keys are distinct; the
handler does not fail. -/
theorem channelSourceHandler_identity (K : Deps) (t : knativeTrait) (ref : ObjectReference)
    (loc : URL) (uri : String) (p : Pass)
    (hKeys : [K.CamelMetaServicePath, K.CamelMetaEndpointKind, K.CamelMetaKnativeAPIVersion,
      K.CamelMetaKnativeKind, historyKey K].Nodup) :
    (channelSourceHandler K t ref loc uri p).2 = none ∧
    ∃ svc, (channelSourceHandler K t ref loc uri p).1.env.Services = p.env.Services ++ [svc] ∧
      identity K svc = (ref.Name, K.CamelEndpointKindSource, K.CamelServiceTypeChannel,
        ref.APIVersion, ref.Kind) := by
  simp only [List.nodup_cons, List.mem_cons, List.mem_singleton, List.not_mem_nil, not_or,
    List.nodup_nil, and_true, or_false] at hKeys
  obtain ⟨⟨h12, h13, h14, h15⟩, ⟨h23, h24, h25⟩, ⟨h34, h35⟩, h45, -⟩ := hKeys
  unfold channelSourceHandler createSubscription Add
  dsimp only
  refine ⟨rfl, _, rfl, ?_⟩
  unfold identity
  dsimp only
  split_ifs
  · rw [StringMap.get_set_ne _ _ _ _ (by exact Ne.symm h25),
      StringMap.get_set_ne _ _ _ _ (by exact Ne.symm h35),
      StringMap.get_set_ne _ _ _ _ (by exact Ne.symm h45)]
    simp [StringMap.get, h12, h13, h14, h23, h24, h34]
  · simp [StringMap.get, h12, h13, h14, h23, h24, h34]

/-- The handler of the sinks leaves the descriptor alone when the definition
cannot be built and appends the definition built otherwise. -/
theorem sinkHandler_env (K : Deps) (serviceType : String) (ref : ObjectReference)
    (loc : URL) (uri : String) (p : Pass) :
    (sinkHandler K serviceType ref loc uri p).1.env.Services = p.env.Services ∨
    ∃ svc, K.BuildCamelServiceDefinition ref.Name K.CamelEndpointKindSink serviceType loc
        ref.APIVersion ref.Kind = .ok svc ∧
      (sinkHandler K serviceType ref loc uri p).1.env.Services = p.env.Services ++ [svc] := by
  unfold sinkHandler
  cases hB : K.BuildCamelServiceDefinition ref.Name K.CamelEndpointKindSink serviceType loc
      ref.APIVersion ref.Kind with
  | error err => exact Or.inl rfl
  | ok svc => exact Or.inr ⟨svc, rfl, rfl⟩

/-- Claim C1: let the metadata keys be distinct, let a definition built for a
sink have the identity it is built for, and let the registry answer with a
reference that completes the one it is asked for.  Then, from a descriptor
in which no two definitions share the identity (name, role, category, API
version and kind), `ifServiceMissingDo` leaves a descriptor in which no two
definitions share it: for every category, role and list with any handler
that appends at most one definition recording the reference it is handed,
and so for the channel sources and for the sinks of every category.  A
list that names the same target twice, the target resolving and not being
in the descriptor yet, adds exactly one definition for it. -/
theorem ifServiceMissingDo_identities_distinct (K : Deps) (t : knativeTrait)
    (hKeys : [K.CamelMetaServicePath, K.CamelMetaEndpointKind, K.CamelMetaKnativeAPIVersion,
      K.CamelMetaKnativeKind, historyKey K].Nodup)
    (hBuild : ∀ name endpointKind serviceType rawurl apiVersion kind svc,
      K.BuildCamelServiceDefinition name endpointKind serviceType rawurl apiVersion kind
        = .ok svc →
      identity K svc = (name, endpointKind, serviceType, apiVersion, kind))
    (hResolver : ∀ serviceType ref namespace_ actualRef,
      K.GetAddressableReference (K.FillMissingReferenceData serviceType ref) namespace_ ref.Name
        = .ok actualRef → completes ref actualRef) :
    (∀ serviceType endpointKind (gen : Handler),
      (∀ ref loc uri (p : Pass),
        (gen ref loc uri p).1.env.Services = p.env.Services ∨
        ∃ svc, (gen ref loc uri p).1.env.Services = p.env.Services ++ [svc] ∧
          identity K svc = (ref.Name, endpointKind, serviceType, ref.APIVersion, ref.Kind)) →
      ∀ (p : Pass) names, (p.env.Services.map (identity K)).Nodup →
        ((ifServiceMissingDo K p names serviceType endpointKind gen).1.env.Services.map
          (identity K)).Nodup) ∧
    (∀ (p : Pass) names, (p.env.Services.map (identity K)).Nodup →
      ((ifServiceMissingDo K p names K.CamelServiceTypeChannel K.CamelEndpointKindSource
        (channelSourceHandler K t)).1.env.Services.map (identity K)).Nodup) ∧
    (∀ (p : Pass) names serviceType, (p.env.Services.map (identity K)).Nodup →
      ((ifServiceMissingDo K p names serviceType K.CamelEndpointKindSink
        (sinkHandler K serviceType)).1.env.Services.map (identity K)).Nodup) ∧
    (∀ (p : Pass) names uri ref actualRef targetURL,
      extractServices K names K.CamelServiceTypeChannel = [uri, uri] →
      K.ExtractObjectReference uri = .ok ref →
      resolve K K.CamelServiceTypeChannel p.e.Integration.Namespace uri
        = some (actualRef, targetURL) →
      ContainsService K p.env ref.Name K.CamelEndpointKindSource K.CamelServiceTypeChannel
        ref.APIVersion ref.Kind = false →
      ∃ svc,
        (ifServiceMissingDo K p names K.CamelServiceTypeChannel K.CamelEndpointKindSource
          (channelSourceHandler K t)).2 = none ∧
        (ifServiceMissingDo K p names K.CamelServiceTypeChannel K.CamelEndpointKindSource
          (channelSourceHandler K t)).1.env.Services = p.env.Services ++ [svc] ∧
        identity K svc = (actualRef.Name, K.CamelEndpointKindSource, K.CamelServiceTypeChannel,
          actualRef.APIVersion, actualRef.Kind)) ∧
    (∀ (p : Pass) names serviceType uri ref actualRef targetURL svc,
      extractServices K names serviceType = [uri, uri] →
      K.ExtractObjectReference uri = .ok ref →
      resolve K serviceType p.e.Integration.Namespace uri = some (actualRef, targetURL) →
      ContainsService K p.env ref.Name K.CamelEndpointKindSink serviceType
        ref.APIVersion ref.Kind = false →
      K.BuildCamelServiceDefinition actualRef.Name K.CamelEndpointKindSink serviceType targetURL
        actualRef.APIVersion actualRef.Kind = .ok svc →
      (ifServiceMissingDo K p names serviceType K.CamelEndpointKindSink
        (sinkHandler K serviceType)).2 = none ∧
      (ifServiceMissingDo K p names serviceType K.CamelEndpointKindSink
        (sinkHandler K serviceType)).1.env.Services = p.env.Services ++ [svc]) := by
  have generic : ∀ serviceType endpointKind (gen : Handler),
      (∀ ref loc uri (p : Pass),
        (gen ref loc uri p).1.env.Services = p.env.Services ∨
        ∃ svc, (gen ref loc uri p).1.env.Services = p.env.Services ++ [svc] ∧
          identity K svc = (ref.Name, endpointKind, serviceType, ref.APIVersion, ref.Kind)) →
      ∀ (p : Pass) names, (p.env.Services.map (identity K)).Nodup →
        ((ifServiceMissingDo K p names serviceType endpointKind gen).1.env.Services.map
          (identity K)).Nodup := by
    intro serviceType endpointKind gen hGen p names hNodup
    exact withServiceDoLoop_identities K serviceType endpointKind gen
      (hResolver serviceType) hGen _ p hNodup
  refine ⟨generic, ?_, ?_, ?_, ?_⟩
  · intro p names hNodup
    refine generic _ _ _ ?_ p names hNodup
    intro ref loc uri q
    exact Or.inr (channelSourceHandler_identity K t ref loc uri q hKeys).2
  · intro p names serviceType hNodup
    refine generic _ _ _ ?_ p names hNodup
    intro ref loc uri q
    rcases sinkHandler_env K serviceType ref loc uri q with h | ⟨svc, hB, h⟩
    · exact Or.inl h
    · exact Or.inr ⟨svc, h, hBuild _ _ _ _ _ _ svc hB⟩
  · intro p names uri ref actualRef targetURL hList hRef hResolve hFirst
    obtain ⟨hNone, svc, hSvc, hId⟩ :=
      channelSourceHandler_identity K t actualRef targetURL uri p hKeys
    obtain ⟨ref', hR', hA, -⟩ := resolve_eq_some K _ _ uri actualRef targetURL hResolve
    rw [hRef] at hR'
    injection hR' with hR'
    subst hR'
    have hrun := withServiceDoLoop_twice K K.CamelServiceTypeChannel K.CamelEndpointKindSource
      (channelSourceHandler K t) uri p (channelSourceHandler K t actualRef targetURL uri p).1
      ref actualRef targetURL svc hRef hResolve (hResolver _ ref _ actualRef hA) hFirst
      (Prod.ext rfl hNone) hSvc hId
    unfold ifServiceMissingDo withServiceDo
    rw [hList, hrun]
    exact ⟨svc, rfl, hSvc, hId⟩
  · intro p names serviceType uri ref actualRef targetURL svc hList hRef hResolve hFirst hB
    obtain ⟨ref', hR', hA, -⟩ := resolve_eq_some K _ _ uri actualRef targetURL hResolve
    rw [hRef] at hR'
    injection hR' with hR'
    subst hR'
    have hH : sinkHandler K serviceType actualRef targetURL uri p =
        ({ p with env := { Services := p.env.Services ++ [svc] } }, none) := by
      unfold sinkHandler
      rw [hB]
    have hrun := withServiceDoLoop_twice K serviceType K.CamelEndpointKindSink
      (sinkHandler K serviceType) uri p _ ref actualRef targetURL svc hRef hResolve
      (hResolver _ ref _ actualRef hA) hFirst hH rfl (hBuild _ _ _ _ _ _ svc hB)
    unfold ifServiceMissingDo withServiceDo
    rw [hList, hrun]
    exact ⟨rfl, rfl⟩

/-- In the sample registry the reference returned is one of the candidates,
placed in the namespace. -/
theorem Sample.GetAddressableReference_mem (registry : List Sample.Addressable)
    (candidates : List ObjectReference) (namespace_ name : String) (actualRef : ObjectReference)
    (h : Sample.GetAddressableReference registry candidates namespace_ name = .ok actualRef) :
    ∃ c ∈ candidates, actualRef = { c with Namespace := namespace_ } := by
  induction candidates with
  | nil => simp [Sample.GetAddressableReference] at h
  | cons c rest ih =>
    unfold Sample.GetAddressableReference at h
    cases hf : Sample.find registry c namespace_ with
    | none =>
      rw [hf] at h
      obtain ⟨c', hc', heq⟩ := ih h
      exact ⟨c', List.mem_cons_of_mem _ hc', heq⟩
    | some o =>
      rw [hf] at h
      dsimp only at h
      cases ha : o.Address with
      | none => rw [ha] at h; simp at h
      | some u =>
        rw [ha] at h
        dsimp only at h
        injection h with h
        exact ⟨c, List.mem_cons_self _ _, h.symm⟩

/-- In the sample cluster every candidate completes the reference it is made
from. -/
theorem Sample.FillMissingReferenceData_completes (serviceType : String)
    (ref c : ObjectReference) (h : c ∈ Sample.FillMissingReferenceData serviceType ref) :
    completes ref c := by
  unfold Sample.FillMissingReferenceData at h
  split_ifs at h with hfull
  · rw [List.mem_singleton] at h
    subst h
    exact ⟨rfl, Or.inr rfl, Or.inr rfl⟩
  · obtain ⟨vk, hvk, rfl⟩ := List.mem_map.mp h
    have hcond := (List.mem_filter.mp hvk).2
    simp only [Bool.and_eq_true, Bool.or_eq_true, decide_eq_true_eq] at hcond
    exact ⟨rfl, hcond.1.imp id Eq.symm, hcond.2.imp id Eq.symm⟩

/-- The registry of the sample cluster answers with a reference that completes
the one it is asked for. -/
theorem Sample.resolver_completes (probe : Option Error) (serviceType : String)
    (ref : ObjectReference) (namespace_ : String) (actualRef : ObjectReference)
    (h : (Sample.deps Sample.registry probe).GetAddressableReference
      ((Sample.deps Sample.registry probe).FillMissingReferenceData serviceType ref)
      namespace_ ref.Name = .ok actualRef) :
    completes ref actualRef := by
  obtain ⟨c, hc, rfl⟩ := Sample.GetAddressableReference_mem _ _ _ _ _ h
  exact Sample.FillMissingReferenceData_completes serviceType ref c hc

/-- In the sample cluster a definition built for a sink has the identity it is
built for. -/
theorem Sample.build_identity (probe : Option Error)
    (name endpointKind serviceType : String) (rawurl : URL) (apiVersion kind : String)
    (svc : CamelServiceDefinition)
    (h : (Sample.deps Sample.registry probe).BuildCamelServiceDefinition name endpointKind
      serviceType rawurl apiVersion kind = .ok svc) :
    identity (Sample.deps Sample.registry probe) svc
      = (name, endpointKind, serviceType, apiVersion, kind) := by
  have h' : (Except.ok
      { Name := name, Host := rawurl.Host, Port := 80, ServiceType := serviceType,
        Metadata :=
          [("service.path", rawurl.Path), ("endpoint.kind", endpointKind),
           ("knative.apiVersion", apiVersion), ("knative.kind", kind)] }
      : Except Error CamelServiceDefinition) = .ok svc := h
  injection h' with h'
  subst h'
  rfl

/-- Witness of `ifServiceMissingDo_identities_distinct`: in the sample cluster,
from an empty descriptor, the channel sources `a,a` end without error and
add exactly one definition, of identity (a, source, channel,
messaging.knative.dev/v1alpha1, InMemoryChannel). -/
theorem ifServiceMissingDo_identities_distinct_witness :
    (∃ svc,
      (ifServiceMissingDo Sample.cluster ⟨⟨[]⟩, Sample.environment []⟩ "a,a" "channel" "source"
        (channelSourceHandler Sample.cluster {})).2 = none ∧
      (ifServiceMissingDo Sample.cluster ⟨⟨[]⟩, Sample.environment []⟩ "a,a" "channel" "source"
        (channelSourceHandler Sample.cluster {})).1.env.Services = [] ++ [svc] ∧
      identity Sample.cluster svc =
        ("a", "source", "channel", "messaging.knative.dev/v1alpha1", "InMemoryChannel")) ∧
    (ifServiceMissingDo Sample.cluster ⟨⟨[]⟩, Sample.environment []⟩ "a,a" "channel" "source"
      (channelSourceHandler Sample.cluster {})).1.env.Services.map (identity Sample.cluster)
      = [("a", "source", "channel", "messaging.knative.dev/v1alpha1", "InMemoryChannel")] :=
  ⟨(ifServiceMissingDo_identities_distinct Sample.cluster {} (by decide)
      (Sample.build_identity none) (Sample.resolver_completes none)).2.2.2.1
      ⟨⟨[]⟩, Sample.environment []⟩ "a,a" "knative://channel/a" { Name := "a" }
      { Kind := "InMemoryChannel", Namespace := "ns", Name := "a",
        APIVersion := "messaging.knative.dev/v1alpha1" }
      { Scheme := "http", Host := "a.ns.svc", Path := "/" }
      rfl rfl rfl (by decide),
    by decide⟩

theorem Environment.extendedBy_refl (ok : Resource → Prop) (e : Environment) :
    Environment.extendedBy ok e e :=
  ⟨rfl, rfl, [], by simp, by simp⟩

theorem Environment.extendedBy_of_eq (ok : Resource → Prop) {e e' : Environment} (h : e' = e) :
    Environment.extendedBy ok e e' := by
  rw [h]; exact Environment.extendedBy_refl ok e

theorem Environment.extendedBy_trans {ok : Resource → Prop} {e1 e2 e3 : Environment}
    (h12 : Environment.extendedBy ok e1 e2) (h23 : Environment.extendedBy ok e2 e3) :
    Environment.extendedBy ok e1 e3 := by
  obtain ⟨i1, v1, a1, r1, o1⟩ := h12
  obtain ⟨i2, v2, a2, r2, o2⟩ := h23
  refine ⟨i2.trans i1, v2.trans v1, a1 ++ a2, ?_, ?_⟩
  · rw [r2, r1, List.append_assoc]
  · intro r hr
    rcases List.mem_append.mp hr with h | h
    · exact o1 r h
    · exact o2 r h

/-- The loop of `withServiceDo` adds to the resources only what the handler
adds when it is called, and it is called only with the resolution of an
entry of the list. -/
theorem withServiceDoLoop_extendedBy (K : Deps) (skip : Bool) (serviceType endpointKind : String)
    (gen : Handler) (ok : Resource → Prop) (integration : Integration) (uris : List String)
    (hgen : ∀ uri ∈ uris, ∀ actualRef targetURL (q : Pass), q.e.Integration = integration →
      resolve K serviceType integration.Namespace uri = some (actualRef, targetURL) →
      Environment.extendedBy ok q.e (gen actualRef targetURL uri q).1.e)
    (p : Pass) (hp : p.e.Integration = integration) :
    Environment.extendedBy ok p.e
      (withServiceDoLoop K skip serviceType endpointKind gen uris p).1.e := by
  induction uris generalizing p with
  | nil => exact Environment.extendedBy_refl ok p.e
  | cons uri rest ih =>
    have ih' := fun (q : Pass) (hq : q.e.Integration = integration) =>
      ih (fun u hu => hgen u (List.mem_cons_of_mem _ hu)) q hq
    rw [withServiceDoLoop_cons]
    cases hR : K.ExtractObjectReference uri with
    | error err => exact Environment.extendedBy_refl ok p.e
    | ok ref =>
      dsimp only
      split_ifs with hs
      · exact ih' p hp
      · cases hA : K.GetAddressableReference (K.FillMissingReferenceData serviceType ref)
            p.e.Integration.Namespace ref.Name with
        | error err =>
          dsimp only
          split_ifs <;> exact Environment.extendedBy_refl ok p.e
        | ok actualRef =>
          dsimp only
          cases hU : K.GetSinkURL actualRef p.e.Integration.Namespace with
          | error err => exact Environment.extendedBy_refl ok p.e
          | ok targetURL =>
            dsimp only
            have hres : resolve K serviceType integration.Namespace uri
                = some (actualRef, targetURL) := by
              rw [← hp]
              exact resolve_of K _ _ uri ref actualRef targetURL hR hA hU
            have hg := hgen uri (List.mem_cons_self _ _) actualRef targetURL p hp hres
            rcases hG : gen actualRef targetURL uri p with ⟨p', _ | err⟩
            · rw [hG] at hg
              exact Environment.extendedBy_trans hg (ih' p' (hg.1.trans hp))
            · rw [hG] at hg
              exact hg

theorem endpointSourcesLoop_keeps_e (K : Deps) (uris : List String) (p : Pass) :
    (endpointSourcesLoop K uris p).1.e = p.e := by
  induction uris generalizing p with
  | nil => rfl
  | cons uri rest ih =>
    rw [endpointSourcesLoop]
    cases hR : K.ExtractObjectReference uri with
    | error err => rfl
    | ok ref =>
      dsimp only
      split_ifs
      · exact ih p
      · exact ih _

theorem ifServiceMissingDo_sinks_keeps_e (K : Deps) (p : Pass) (names serviceType : String) :
    (ifServiceMissingDo K p names serviceType K.CamelEndpointKindSink
      (sinkHandler K serviceType)).1.e = p.e :=
  withServiceDoLoop_keeps_e K true serviceType K.CamelEndpointKindSink
    (sinkHandler K serviceType) (sinkHandler_keeps_e K serviceType) _ p

/-- What `configureChannels` adds to the resources: subscriptions made for
entries of the channel sources that resolved. -/
theorem configureChannels_extendedBy (K : Deps) (t : knativeTrait) (p : Pass) :
    Environment.extendedBy (addedBy K t p.e.Integration) p.e (configureChannels K t p).1.e := by
  have h1 : Environment.extendedBy (addedBy K t p.e.Integration) p.e
      (ifServiceMissingDo K p t.ChannelSources K.CamelServiceTypeChannel
        K.CamelEndpointKindSource (channelSourceHandler K t)).1.e := by
    refine withServiceDoLoop_extendedBy K true _ _ _ _ p.e.Integration _ ?_ p rfl
    intro uri huri actualRef targetURL q hq hres
    unfold channelSourceHandler createSubscription Add
    refine ⟨rfl, rfl, _, rfl, ?_⟩
    intro r hr
    rw [List.mem_singleton] at hr
    subst hr
    refine Or.inl ⟨uri, huri, actualRef, targetURL, hres, ?_⟩
    dsimp only
    rw [hq]
  unfold configureChannels
  rcases hS : ifServiceMissingDo K p t.ChannelSources K.CamelServiceTypeChannel
    K.CamelEndpointKindSource (channelSourceHandler K t) with ⟨p1, _ | err⟩
  · rw [hS] at h1
    dsimp only
    have h2 := ifServiceMissingDo_sinks_keeps_e K p1 t.ChannelSinks K.CamelServiceTypeChannel
    rcases hK : ifServiceMissingDo K p1 t.ChannelSinks K.CamelServiceTypeChannel
      K.CamelEndpointKindSink (sinkHandler K K.CamelServiceTypeChannel) with ⟨p2, _ | err⟩
    · rw [hK] at h2
      dsimp only at h2 ⊢
      rw [h2]
      exact h1
    · rw [hK] at h2
      dsimp only at h2 ⊢
      rw [h2]
      exact h1
  · rw [hS] at h1
    exact h1

theorem configureEndpoints_keeps_e (K : Deps) (t : knativeTrait) (p : Pass) :
    (configureEndpoints K t p).1.e = p.e := by
  unfold configureEndpoints
  dsimp only
  have h1 := endpointSourcesLoop_keeps_e K
    (extractServices K t.EndpointSources K.CamelServiceTypeEndpoint) p
  rcases hS : endpointSourcesLoop K
    (extractServices K t.EndpointSources K.CamelServiceTypeEndpoint) p with ⟨p1, _ | err⟩
  · rw [hS] at h1
    dsimp only at h1 ⊢
    have h2 := ifServiceMissingDo_sinks_keeps_e K p1 t.EndpointSinks K.CamelServiceTypeEndpoint
    rcases hK : ifServiceMissingDo K p1 t.EndpointSinks K.CamelServiceTypeEndpoint
      K.CamelEndpointKindSink (sinkHandler K K.CamelServiceTypeEndpoint) with ⟨p2, _ | err⟩
    · rw [hK] at h2
      dsimp only at h2 ⊢
      rw [h2, h1]
    · rw [hK] at h2
      dsimp only at h2 ⊢
      rw [h2, h1]
  · rw [hS] at h1
    exact h1

/-- What `configureEvents` adds to the resources: triggers made for entries of
the event sources that resolved, with the event type of the entry. -/
theorem configureEvents_extendedBy (K : Deps) (t : knativeTrait) (p : Pass) :
    Environment.extendedBy (addedBy K t p.e.Integration) p.e (configureEvents K t p).1.e := by
  rw [configureEvents_e]
  unfold withServiceDo
  refine withServiceDoLoop_extendedBy K false _ _ _ _ p.e.Integration _ ?_ p rfl
  intro uri huri actualRef targetURL q hq hres
  obtain ⟨p', hH, hpe⟩ := eventSourceHandler_spec K actualRef targetURL uri q
  obtain ⟨-, hRes⟩ := createTrigger_resources K q actualRef (K.ExtractEventType uri)
  obtain ⟨hI, hV, -, -⟩ := createTrigger_grows K q actualRef (K.ExtractEventType uri)
  rw [hH]
  dsimp only
  rw [hpe]
  refine ⟨hI, hV, ?_⟩
  rw [hRes]
  split_ifs
  · exact ⟨[], by simp, by simp⟩
  · refine ⟨_, rfl, ?_⟩
    intro r hr
    rw [List.mem_singleton] at hr
    subst hr
    refine Or.inr ⟨uri, huri, actualRef, targetURL, hres, ?_⟩
    rw [hq]

/-- Claim C6, amended: whenever `Apply` returns an error, the variable
`CAMEL_KNATIVE_CONFIGURATION` has not been set, the environment variables
being what they were before the call; the resources are those of before
the call, in order, followed by objects added for entries processed before
the failure: each added object is the subscription made for an entry of
the channel sources that resolved, or the trigger made for an entry of the
event sources that resolved, with the event type of that entry. -/
theorem Apply_error_keeps_variables (K : Deps) (t : knativeTrait) (e : Environment)
    (hErr : (Apply K t e).2 ≠ none) :
    (Apply K t e).1.EnvVars = e.EnvVars ∧
    ∃ added, (Apply K t e).1.Resources = e.Resources ++ added ∧
      ∀ r ∈ added, addedBy K t e.Integration r := by
  revert hErr
  unfold Apply
  dsimp only
  cases hD : (if t.Configuration ≠ "" then K.Deserialize NewCamelEnvironment t.Configuration
      else Except.ok NewCamelEnvironment) with
  | error err => exact fun _ => ⟨rfl, [], by simp, by simp⟩
  | ok env =>
    dsimp only
    have h1 := configureChannels_extendedBy K t ⟨env, e⟩
    dsimp only at h1
    rcases hC : configureChannels K t ⟨env, e⟩ with ⟨p1, _ | err⟩
    · rw [hC] at h1
      dsimp only at h1 ⊢
      have h2 := configureEndpoints_keeps_e K t p1
      rcases hE : configureEndpoints K t p1 with ⟨p2, _ | err⟩
      · rw [hE] at h2
        dsimp only at h2 ⊢
        have h3 := configureEvents_extendedBy K t p2
        rw [h2, h1.1] at h3
        rcases hV : configureEvents K t p2 with ⟨p3, _ | err⟩
        · rw [hV] at h3
          dsimp only at h3 ⊢
          have h := Environment.extendedBy_trans h1 h3
          cases hS : K.Serialize p3.env with
          | error err => exact fun _ => h.2
          | ok conf => exact fun hne => absurd rfl hne
        · rw [hV] at h3
          have h := Environment.extendedBy_trans h1 h3
          exact fun _ => h.2
      · rw [hE] at h2
        dsimp only at h2 ⊢
        rw [h2]
        exact fun _ => h1.2
    · rw [hC] at h1
      exact fun _ => h1.2

/-- Witness of `Apply_error_keeps_variables`: in the sample cluster the channel
`a` exists and the endpoint `missing` does not; `Apply` on the
channel-sources `a` and the endpoint-sinks `missing` fails after the
subscription to `a` has been added, the environment variables are those of
the start and the resources hold that subscription and nothing else. -/
theorem Apply_error_keeps_variables_witness :
    (Apply Sample.cluster { ChannelSources := "a", EndpointSinks := "missing" }
      (Sample.environment [])).2 ≠ none ∧
    ((Apply Sample.cluster { ChannelSources := "a", EndpointSinks := "missing" }
        (Sample.environment [])).1.EnvVars = (Sample.environment []).EnvVars ∧
      ∃ added,
        (Apply Sample.cluster { ChannelSources := "a", EndpointSinks := "missing" }
          (Sample.environment [])).1.Resources = (Sample.environment []).Resources ++ added ∧
        ∀ r ∈ added,
          addedBy Sample.cluster { ChannelSources := "a", EndpointSinks := "missing" }
            (Sample.environment []).Integration r) ∧
    (Apply Sample.cluster { ChannelSources := "a", EndpointSinks := "missing" }
      (Sample.environment [])).1.Resources
      = [Sample.CreateSubscription
          { Kind := "InMemoryChannel", Namespace := "ns", Name := "a",
            APIVersion := "messaging.knative.dev/v1alpha1" } "it" false] :=
  ⟨by decide,
    Apply_error_keeps_variables Sample.cluster
      { ChannelSources := "a", EndpointSinks := "missing" } (Sample.environment []) (by decide),
    by decide⟩

end Knative
